import Mathlib

/-!
Verification development for the Meguru trip-planning core
(repository `meguru-ai-agents`).

The definitions below are shallow embeddings of the Python sources:

* `src/meguru/agents/memory.py`    — Trip Brief Memory (sticky fields)
* `src/meguru/agents/listener.py`  — Listener extraction and merging
* `src/meguru/core/llm.py`         — JSON retry protocol
* `src/meguru/agents/__init__.py`  — schema validation wrapper
* `src/meguru/schemas.py`          — data model and normalisers
* `src/meguru/workflows/trip_pipeline.py` — research cache

Python strings are modelled as Lean `String` (the repository only
manipulates ASCII-relevant fragments), Python `None`/absent dict keys as
`Option`, and JSON payloads as the inductive `JVal`.
-/

set_option maxHeartbeats 1000000

/-! ### Python string primitives -/

/-- Characters treated as whitespace by Python `str.strip()` and `\s`. -/
def isPySpace (c : Char) : Bool :=
  c = ' ' || c = '\t' || c = '\n' || c = '\r' || c = '\x0b' || c = '\x0c'

/-- `str.strip()` on a character list. -/
def pyStripList (cs : List Char) : List Char :=
  ((cs.dropWhile isPySpace).reverse.dropWhile isPySpace).reverse

/-- Python `str.strip()` with no argument. -/
def pyStrip (s : String) : String :=
  String.mk (pyStripList s.toList)

/-- Python `str.strip(chars)` with an explicit character set. -/
def pyStripChars (set : List Char) (s : String) : String :=
  String.mk ((((s.toList.dropWhile (· ∈ set)).reverse).dropWhile (· ∈ set)).reverse)

/-- Python `str.lower()` (ASCII fragment). -/
def pyLower (s : String) : String :=
  String.mk (s.toList.map Char.toLower)

/-- Membership of `sub` as a contiguous sublist of the second argument. -/
def listContainsSub (sub : List Char) : List Char → Bool
  | [] => sub.isEmpty
  | c :: rest => sub.isPrefixOf (c :: rest) || listContainsSub sub rest

/-- Python `sub in hay` for strings. -/
def strContains (hay sub : String) : Bool :=
  listContainsSub sub.toList hay.toList

/-- Single pass behind `pySplitWs`: `cur` is the word being read (reversed),
`acc` the finished words (reversed). -/
def pySplitWsAux : List Char → List String → List Char → List String
  | cur, acc, [] => (if cur.isEmpty then acc else String.mk cur.reverse :: acc).reverse
  | cur, acc, c :: rest =>
    if isPySpace c then
      pySplitWsAux [] (if cur.isEmpty then acc else String.mk cur.reverse :: acc) rest
    else pySplitWsAux (c :: cur) acc rest

/-- Python `str.split()` (split on whitespace runs, dropping empties). -/
def pySplitWs (s : String) : List String :=
  pySplitWsAux [] [] s.toList

/-- Lexicographic code-point comparison of character lists (Python string
`<`). -/
def charListLt : List Char → List Char → Bool
  | [], [] => false
  | [], _ :: _ => true
  | _ :: _, [] => false
  | a :: as, b :: bs =>
    if a.toNat < b.toNat then true
    else if b.toNat < a.toNat then false
    else charListLt as bs

/-- Python `a < b` on strings. -/
def pyStrLt (a b : String) : Bool :=
  charListLt a.toList b.toList

/-- Python `a <= b` on strings (total: the negation of the reverse strict
comparison). -/
def pyStrLe (a b : String) : Bool :=
  !(pyStrLt b a)

/-- Ordered insertion behind `pySortStrings`. -/
def pyInsertSorted (x : String) : List String → List String
  | [] => [x]
  | y :: ys => if pyStrLe x y then x :: y :: ys else y :: pyInsertSorted x ys

/-- Python `sorted(xs)` on strings: ascending lexicographic order. -/
def pySortStrings (l : List String) : List String :=
  l.foldr pyInsertSorted []

/-- Python `" ".join(parts)`. -/
def pyJoin (sep : String) (parts : List String) : String :=
  String.intercalate sep parts

/-- A nonempty-string truthiness check (`if value:` on an optional string). -/
def truthyOptStr : Option String → Bool
  | none => false
  | some s => s ≠ ""

/-- Python `a or b` on optionals whose payloads are always truthy. -/
def pyOrOpt {α : Type} (a b : Option α) : Option α :=
  match a with
  | some x => some x
  | none => b

/-- Python `a or b` on lists. -/
def pyOrList {α : Type} (a b : List α) : List α :=
  match a with
  | [] => b
  | x :: xs => x :: xs

/-- First-occurrence lookup in an ordered keyword table (`dict.get`). -/
def tableGet (table : List (String × String)) (k : String) : Option String :=
  (table.find? (fun kv => kv.1 = k)).map (·.2)

/-- Ordered de-duplication keeping first occurrences; `seen` holds the keys
already emitted. -/
def firstDedupAux (seen : List String) : List String → List String
  | [] => []
  | x :: xs =>
    if seen.contains x then firstDedupAux seen xs
    else x :: firstDedupAux (x :: seen) xs

/-- Python `list(dict.fromkeys(xs))`. -/
def firstDedup (l : List String) : List String :=
  firstDedupAux [] l

/-! ### Numeric coercions (`_coerce_positive_int` in memory.py / listener.py) -/

/-- The Python primitive values that can appear in the loosely-typed
conversation state (`None`, `int`, `bool`, `str`). -/
inductive PyPrim where
  | pnone
  | pint (n : Int)
  | pbool (b : Bool)
  | pstr (s : String)
deriving Repr, DecidableEq

/-- Value of a digit list, most significant first. -/
def digitsToNat (cs : List Char) : Nat :=
  cs.foldl (fun a c => a * 10 + (c.toNat - 48)) 0

/-- Python `int(s)` on an already-stripped string (sign plus digits). -/
def parsePyInt (s : String) : Option Int :=
  match s.toList with
  | [] => none
  | c :: rest =>
    if c = '-' then
      if rest ≠ [] && rest.all Char.isDigit then some (-(digitsToNat rest : Int)) else none
    else if c = '+' then
      if rest ≠ [] && rest.all Char.isDigit then some ((digitsToNat rest : Int)) else none
    else if (c :: rest).all Char.isDigit then some ((digitsToNat (c :: rest) : Int)) else none

/-- `_coerce_positive_int` (memory.py lines 18-39, listener.py lines 133-154):
booleans are rejected, integers kept when positive, strings stripped and
parsed, everything else (including `None`, whose `str()` is unparseable)
yields `None`. -/
def coercePositiveInt : PyPrim → Option Int
  | .pbool _ => none
  | .pint n => if n > 0 then some n else none
  | .pstr s =>
    let cleaned := pyStrip s
    if cleaned = "" then none
    else
      match parsePyInt cleaned with
      | none => none
      | some n => if n > 0 then some n else none
  | .pnone => none

/-! ### Trip Brief Memory (`src/meguru/agents/memory.py`) -/

/-- `_clean_text`: strip a string, mapping empty results and `None` to `None`. -/
def cleanText : Option String → Option String
  | none => none
  | some s =>
    let t := pyStrip s
    if t = "" then none else some t

/-- `_OCCASION_KEYWORDS` (memory.py lines 42-48), in dict insertion order. -/
def occasionKeywords : List (String × String) :=
  [("anniversary", "anniversary"), ("honeymoon", "honeymoon"),
   ("birthday", "birthday"), ("proposal", "proposal"), ("babymoon", "babymoon")]

/-- `_MOOD_TONES` (memory.py lines 50-54). -/
def moodTones : List (String × String) :=
  [("burned_out", "soothing"), ("celebration", "celebratory"), ("peaceful", "calm")]

/-- `TripBrief` (memory.py lines 57-69). -/
structure TripBrief where
  destination : Option String := none
  group_type : Option String := none
  group_size : Option Int := none
  travel_pace : Option String := none
  budget : Option String := none
  vibes : List String := []
  mood : Option String := none
  tone : Option String := none
  occasion : Option String := none
deriving Repr, DecidableEq

/-- The relevant slice of the planner-state mapping handed to
`TripBriefMemory.update`; absent dict keys are `none` / `.pnone`. -/
structure BriefState where
  destination : Option String := none
  group_type : Option String := none
  group_size : PyPrim := .pnone
  travel_pace : Option String := none
  budget : Option String := none
  mood : Option String := none
  tone : Option String := none
  occasion : Option String := none
  vibe : Option (List String) := none
  notes : Option String := none
  timing_note : Option String := none
deriving Repr, DecidableEq

/-- The vibe-cleaning loop of `TripBriefMemory.update` (memory.py lines
125-133): clean each entry, drop empties, de-duplicate case-insensitively
keeping the first casing. -/
def dedupVibesAux (seen : List String) (acc : List String) : List String → List String
  | [] => acc.reverse
  | item :: rest =>
    match cleanText (some item) with
    | none => dedupVibesAux seen acc rest
    | some cleaned =>
      if pyLower cleaned ∈ seen then dedupVibesAux seen acc rest
      else dedupVibesAux (pyLower cleaned :: seen) (cleaned :: acc) rest

/-- Cleaned incoming vibes; an absent `vibe` key contributes nothing. -/
def cleanVibes : Option (List String) → List String
  | none => []
  | some items => dedupVibesAux [] [] items

/-- The note text scanned for occasion keywords (memory.py lines 136-139):
truthy `notes`/`timing_note` values joined by a space and lower-cased. -/
def occasionNoteText (st : BriefState) : String :=
  pyLower (pyJoin " "
    ((if truthyOptStr st.notes then [st.notes.getD ""] else []) ++
     (if truthyOptStr st.timing_note then [st.timing_note.getD ""] else [])))

/-- First occasion keyword found in the note text (memory.py lines 140-143). -/
def occasionScan (text : String) : Option String :=
  (occasionKeywords.find? (fun kv => strContains text kv.1)).map (·.2)

/-- `TripBriefMemory.update` (memory.py lines 114-161) as a pure function
from the held brief and the incoming state to the new brief. -/
def TripBriefMemory.update (prev : TripBrief) (st : BriefState) : TripBrief :=
  let destination := cleanText st.destination
  let group_type := cleanText st.group_type
  let group_size := coercePositiveInt st.group_size
  let travel_pace := cleanText st.travel_pace
  let budget := cleanText st.budget
  let mood := cleanText st.mood
  let tone0 := cleanText st.tone
  let vibes := cleanVibes st.vibe
  let occasion0 := cleanText st.occasion
  let occasion :=
    match occasion0 with
    | some o => some o
    | none => occasionScan (occasionNoteText st)
  let tone :=
    match tone0, mood with
    | none, some m => tableGet moodTones (pyLower m)
    | t, _ => t
  { destination := pyOrOpt destination prev.destination
    group_type := pyOrOpt group_type prev.group_type
    group_size := pyOrOpt group_size prev.group_size
    travel_pace := pyOrOpt travel_pace prev.travel_pace
    budget := pyOrOpt budget prev.budget
    vibes := pyOrList vibes prev.vibes
    mood := pyOrOpt mood prev.mood
    tone := pyOrOpt tone prev.tone
    occasion := pyOrOpt occasion prev.occasion }

/-! ### Listener (`src/meguru/agents/listener.py`) -/

/-- `_VIBE_OPTIONS` (listener.py lines 11-17). -/
def vibeOptions : List String :=
  ["Nightlife", "Foodie adventures", "Culture & history", "Outdoors & nature",
   "Something eclectic"]

/-- `_PACE_OPTIONS` (listener.py line 19). -/
def paceOptions : List String := ["Laid back", "Balanced", "All-out"]

/-- `_BUDGET_OPTIONS` (listener.py line 20). -/
def budgetOptions : List String := ["Shoestring", "Moderate", "Splurge"]

/-- `_MOOD_KEYWORDS` (listener.py lines 23-59), in dict insertion order. -/
def moodKeywords : List (String × List String) :=
  [("burned_out",
    ["burned out", "burnt out", "burned-out", "burnt-out", "overwhelmed",
     "exhausted", "fried", "stressed", "drained"]),
   ("celebration",
    ["celebrate", "celebration", "birthday", "anniversary", "promotion",
     "engagement", "honeymoon", "bachelorette", "bachelor party", "graduation"]),
   ("peaceful",
    ["peaceful", "peace", "calm", "serene", "restful", "unwind", "relax",
     "recharge", "reset", "quiet"])]

/-- Whitespace-run collapsing behind `_normalise`; the flag records whether
the previous kept character was a space. -/
def collapseWsAux : Bool → List Char → List Char
  | _, [] => []
  | prevSpace, c :: rest =>
    if isPySpace c then
      if prevSpace then collapseWsAux true rest
      else ' ' :: collapseWsAux true rest
    else c :: collapseWsAux false rest

/-- `_normalise` (listener.py lines 62-63): strip, lower-case, collapse
whitespace runs to single spaces. -/
def pyNormalise (text : String) : String :=
  String.mk (collapseWsAux false (pyStripList (pyLower text).toList))

/-- The keyword table of `_extract_group_type` (listener.py lines 66-93),
in dict insertion order. -/
def groupTypeOptions : List (String × String) :=
  [("solo", "Just me"), ("alone", "Just me"), ("myself", "Just me"),
   ("partner", "Partner getaway"), ("spouse", "Partner getaway"),
   ("wife", "Partner getaway"), ("husband", "Partner getaway"),
   ("girlfriend", "Partner getaway"), ("boyfriend", "Partner getaway"),
   ("couple", "Partner getaway"),
   ("family", "Family crew"), ("kids", "Family crew"), ("parents", "Family crew"),
   ("friends", "Friends trip"), ("buddies", "Friends trip"), ("mates", "Friends trip"),
   ("cowork", "Workmates"), ("colleague", "Workmates"), ("team", "Workmates"),
   ("office", "Workmates")]

/-- `_extract_group_type`: first keyword contained in the normalised text. -/
def extractGroupType (text : String) : Option String :=
  let lowered := pyNormalise text
  (groupTypeOptions.find? (fun kv => strContains lowered kv.1)).map (·.2)

/-- `_NUMBER_WORDS` (listener.py lines 96-109). -/
def numberWords : List (String × Int) :=
  [("one", 1), ("two", 2), ("three", 3), ("four", 4), ("five", 5), ("six", 6),
   ("seven", 7), ("eight", 8), ("nine", 9), ("ten", 10), ("eleven", 11),
   ("twelve", 12)]

/-- First maximal digit run in the text (`re.findall(r"\d+", text)[0]`). -/
def firstDigitRun : List Char → Option (List Char)
  | [] => none
  | c :: rest =>
    if c.isDigit then some ((c :: rest).takeWhile Char.isDigit)
    else firstDigitRun rest

/-- `keyword_defaults` of `_extract_group_size` (listener.py line 126). -/
def groupSizeDefaults : List (String × Int) :=
  [("couple", 2), ("pair", 2), ("duo", 2), ("solo", 1), ("myself", 1)]

/-- `_extract_group_size` (listener.py lines 112-130): the first digit run
when positive, else a number word, else a type-implied default. -/
def extractGroupSize (text : String) : Option Int :=
  let byDigits : Option Int :=
    match firstDigitRun text.toList with
    | some run =>
      let value : Int := (digitsToNat run : Nat)
      if value > 0 then some value else none
    | none => none
  match byDigits with
  | some v => some v
  | none =>
    let lowered := pyNormalise text
    match (numberWords.find? (fun kv => strContains lowered kv.1)).map (·.2) with
    | some v => some v
    | none => (groupSizeDefaults.find? (fun kv => strContains lowered kv.1)).map (·.2)

/-- `_VIBE_KEYWORDS` (listener.py lines 157-174), in dict insertion order. -/
def vibeKeywords : List (String × String) :=
  [("night", "Nightlife"), ("club", "Nightlife"), ("bar", "Nightlife"),
   ("food", "Foodie adventures"), ("eat", "Foodie adventures"),
   ("restaurant", "Foodie adventures"),
   ("culture", "Culture & history"), ("museum", "Culture & history"),
   ("history", "Culture & history"),
   ("outdoor", "Outdoors & nature"), ("hike", "Outdoors & nature"),
   ("nature", "Outdoors & nature"), ("forest", "Outdoors & nature"),
   ("eclectic", "Something eclectic"), ("art", "Something eclectic"),
   ("design", "Something eclectic")]

/-- `re.split(r"[,/]| and ", lowered)` used by `_extract_vibes`: at each
position the class `[,/]` is tried first, then the literal `" and "`
(whose five characters are all consumed). -/
def splitVibeChunksAux : List Char → List Char → List String
  | cur, [] => [String.mk cur.reverse]
  | cur, ',' :: rest => String.mk cur.reverse :: splitVibeChunksAux [] rest
  | cur, '/' :: rest => String.mk cur.reverse :: splitVibeChunksAux [] rest
  | cur, ' ' :: 'a' :: 'n' :: 'd' :: ' ' :: rest =>
    String.mk cur.reverse :: splitVibeChunksAux [] rest
  | cur, c :: rest => splitVibeChunksAux (c :: cur) rest

/-- `re.split(r"[,/]| and ", s)`. -/
def splitVibeChunks (s : String) : List String :=
  splitVibeChunksAux [] s.toList

/-- `_extract_vibes` (listener.py lines 177-191): literal option names, then
topical keywords, then chunk-exact option names; insertion order, no
duplicates. -/
def extractVibes (text : String) : List String :=
  let lowered := pyNormalise text
  let detected0 := vibeOptions.filter (fun option => strContains lowered (pyLower option))
  let detected1 := vibeKeywords.foldl
    (fun acc kv =>
      if strContains lowered kv.1 && !(acc.contains kv.2) then acc ++ [kv.2] else acc)
    detected0
  (splitVibeChunks lowered).foldl
    (fun acc chunk =>
      let chunk := pyStrip chunk
      vibeOptions.foldl
        (fun acc2 option =>
          if chunk = pyLower option && !(acc2.contains option) then acc2 ++ [option]
          else acc2)
        acc)
    detected1

/-- `_extract_mood` (listener.py lines 194-203): first mood family with a
keyword contained in the normalised text. -/
def extractMood (text : String) : Option String :=
  let lowered := pyNormalise text
  if lowered = "" then none
  else (moodKeywords.find? (fun mk => mk.2.any (fun k => strContains lowered k))).map (·.1)

/-- `_infer_travel_pace` (listener.py lines 206-217). -/
def inferTravelPace (text : String) : Option String :=
  let lowered := pyNormalise text
  if ["laid back", "laid-back", "laidback"].any (fun t => strContains lowered t) ||
     ["relax", "slow", "chill", "easy", "unhurried"].any (fun t => strContains lowered t) then
    some "Laid back"
  else if ["balanced", "mix", "medium", "moderate"].any (fun t => strContains lowered t) then
    some "Balanced"
  else if ["packed", "full", "busy", "nonstop", "all out", "all-out"].any
      (fun t => strContains lowered t) then
    some "All-out"
  else none

/-- `_infer_budget` (listener.py lines 220-228). -/
def inferBudget (text : String) : Option String :=
  let lowered := pyNormalise text
  if ["cheap", "budget", "shoestring", "tight", "save"].any (fun t => strContains lowered t) then
    some "Shoestring"
  else if ["mid", "moderate", "reasonable", "comfortable", "middle"].any
      (fun t => strContains lowered t) then
    some "Moderate"
  else if ["lux", "splurge", "premium", "fancy", "high end", "high-end"].any
      (fun t => strContains lowered t) then
    some "Splurge"
  else none

/-- `_MONTH_NAMES` (listener.py lines 231-244). -/
def monthNames : List String :=
  ["january", "february", "march", "april", "may", "june", "july", "august",
   "september", "october", "november", "december"]

/-- `re.search(r"\d{4}", s)`: four consecutive digits occur somewhere. -/
def hasFourDigits : List Char → Bool
  | c1 :: c2 :: c3 :: c4 :: rest =>
    (c1.isDigit && c2.isDigit && c3.isDigit && c4.isDigit) ||
      hasFourDigits (c2 :: c3 :: c4 :: rest)
  | _ => false

/-- `re.search(r"\d{1,2}/\d{1,2}", s)`: a digit, a slash and a digit occur
consecutively somewhere. -/
def hasDateFragment : List Char → Bool
  | c1 :: c2 :: c3 :: rest =>
    (c1.isDigit && c2 = '/' && c3.isDigit) || hasDateFragment (c2 :: c3 :: rest)
  | _ => false

/-- `_extract_timing` (listener.py lines 247-255). -/
def extractTiming (text : String) : Option String :=
  let lowered := pyNormalise text
  if monthNames.any (fun m => strContains lowered m) then some (pyStrip text)
  else if hasFourDigits lowered.toList || hasDateFragment lowered.toList then
    some (pyStrip text)
  else if ["week", "weekend", "month", "summer", "winter"].any
      (fun t => strContains lowered t) then
    some (pyStrip text)
  else none

/-- `_DESTINATION_STOP_WORDS` (listener.py lines 258-287). -/
def destinationStopWords : List String :=
  ["in", "for", "with", "during", "over", "around", "through", "while", "when",
   "because", "since", "after", "before", "on", "at", "by", "from", "this",
   "next", "the", "a", "an", "my", "our", "his", "her", "their"]

/-- The apostrophe character (written by code point to keep source clean). -/
def aposChar : Char := Char.ofNat 39

/-- A character of the capture class `[A-Za-z\s\-']`. -/
def isDestChar (c : Char) : Bool :=
  c.isAlpha || isPySpace c || c = '-' || c = aposChar

/-- One alternative of the destination pattern
`(?:to|in|around|for)\s+([A-Za-z][A-Za-z\s\-']{2,})` tried at the current
position: the literal (case-insensitively), at least one whitespace
character, then a greedy capture of three or more class characters. -/
def destTryAlt (alt : List Char) (cs : List Char) : Option (List Char) :=
  if (cs.take alt.length).map Char.toLower = alt then
    let after := cs.drop alt.length
    if (after.takeWhile isPySpace).isEmpty then none
    else
      match after.dropWhile isPySpace with
      | [] => none
      | d :: tail =>
        if d.isAlpha then
          let body := tail.takeWhile isDestChar
          if body.length ≥ 2 then some (d :: body) else none
        else none
  else none

/-- All alternatives tried at the current position (alternation order of the
pattern; the literals start with distinct letters, so at most one fits). -/
def destTryAt (cs : List Char) : Option (List Char) :=
  match destTryAlt "to".toList cs with
  | some cap => some cap
  | none =>
    match destTryAlt "in".toList cs with
    | some cap => some cap
    | none =>
      match destTryAlt "around".toList cs with
      | some cap => some cap
      | none => destTryAlt "for".toList cs

/-- `re.search` for the destination pattern: leftmost match wins. -/
def destSearchPos : List Char → Option (List Char)
  | [] => none
  | c :: rest =>
    match destTryAt (c :: rest) with
    | some cap => some cap
    | none => destSearchPos rest

/-- Python `str.title()`: the first letter of each letter run upper-cased,
the rest lower-cased. -/
def pyTitleAux : Bool → List Char → List Char
  | _, [] => []
  | prevAlpha, c :: rest =>
    if c.isAlpha then
      (if prevAlpha then c.toLower else c.toUpper) :: pyTitleAux true rest
    else c :: pyTitleAux false rest

/-- Python `str.title()`. -/
def pyTitle (s : String) : String :=
  String.mk (pyTitleAux false s.toList)

/-- The token loop of `_guess_destination` (listener.py lines 298-306):
strip punctuation, drop empties, stop at a stop-word once a token exists. -/
def destTokens (acc : List String) : List String → List String
  | [] => acc.reverse
  | raw :: rest =>
    let cleaned := pyStripChars [' ', ',', '.', ';', ':', '!', '?'] raw
    if cleaned = "" then destTokens acc rest
    else if destinationStopWords.contains (pyLower cleaned) && acc ≠ [] then acc.reverse
    else destTokens (cleaned :: acc) rest

/-- `_guess_destination` (listener.py lines 289-314). -/
def guessDestination (text : String) : Option String :=
  let stripped := pyStrip text
  if stripped = "" then none
  else
    let viaMatch : Option String :=
      match destSearchPos stripped.toList with
      | none => none
      | some cap =>
        let candidate := pyStrip (String.mk cap)
        let tokens := destTokens [] (pySplitWs candidate)
        let candidate2 := pyStripChars ['-', ' ', ','] (pyJoin " " tokens)
        if candidate2 ≠ "" then some (pyTitle candidate2) else none
    match viaMatch with
    | some d => some d
    | none =>
      let tokens := pySplitWs stripped
      if 1 ≤ tokens.length && tokens.length ≤ 4 then some (pyTitle stripped) else none

/-- A conversation-context slot holding an optional string. Python
distinguishes a missing dict key (`absent`, `dict.get` returns the default)
from a key present with value `None` (`pynone`, whose `str()` is the
non-empty string "None"). `_merge_context` `setdefault`s `timing_note`, so
merged contexts always carry that key. -/
inductive StrSlot where
  | absent
  | pynone
  | val (s : String)
deriving Repr, DecidableEq

/-- `str(context.get(key, ""))` on a slot. -/
def StrSlot.pyStr : StrSlot → String
  | .absent => ""
  | .pynone => "None"
  | .val s => s

/-- `bool(context.get(key))` on a slot. -/
def StrSlot.truthy : StrSlot → Bool
  | .val s => s ≠ ""
  | _ => false

/-- The conversation-context mapping as read and written by the Listener.
`start_date`/`end_date` hold ISO renderings of the date objects the UI
stores (only their truthiness is ever used). `notes` and `vibe` collapse
absent/`None` to their merge defaults `""` and `[]`. -/
structure PlanContext where
  destination : StrSlot := .absent
  timing_note : StrSlot := .absent
  start_date : StrSlot := .absent
  end_date : StrSlot := .absent
  flexible_months : List String := []
  vibe : List String := []
  travel_pace : StrSlot := .absent
  budget : StrSlot := .absent
  group_type : StrSlot := .absent
  group_size : PyPrim := .pnone
  notes : String := ""
  mood : StrSlot := .absent
deriving Repr, DecidableEq

/-- `Listener._required_fields` (listener.py line 340). -/
def requiredFields : List String :=
  ["destination", "timing", "vibe", "travel_pace", "budget", "group"]

/-- `Listener._has_field` (listener.py lines 480-501). -/
def hasField (ctx : PlanContext) (f : String) : Bool :=
  if f = "destination" then pyStrip ctx.destination.pyStr ≠ ""
  else if f = "timing" then
    (ctx.start_date.truthy && ctx.end_date.truthy) ||
    ctx.flexible_months ≠ [] ||
    pyStrip ctx.timing_note.pyStr ≠ ""
  else if f = "vibe" then ctx.vibe ≠ []
  else if f = "travel_pace" then paceOptions.contains (pyStrip ctx.travel_pace.pyStr)
  else if f = "budget" then budgetOptions.contains (pyStrip ctx.budget.pyStr)
  else if f = "group" then
    pyStrip ctx.group_type.pyStr ≠ "" || (coercePositiveInt ctx.group_size).isSome
  else false

/-- `Listener._detect_missing_fields` (listener.py lines 503-516). -/
def detectMissingFields (ctx : PlanContext) (pending resolved : List String) :
    List String :=
  let remaining := pending.filter (fun f => !(resolved.contains f))
  if remaining ≠ [] then firstDedup remaining
  else
    match requiredFields.find? (fun f => !(hasField ctx f)) with
    | some f => [f]
    | none => []

/-- The `context_updates` payload assembled by `Listener.run` for a chat
message (listener.py lines 362-398); values set by the extractors are
always truthy. -/
structure ContextUpdates where
  notes_append : Option String := none
  destination : Option String := none
  timing_note : Option String := none
  travel_pace : Option String := none
  budget : Option String := none
  group_type : Option String := none
  group_size : Option Int := none
  mood : Option String := none
  vibe_add : List String := []
deriving Repr, DecidableEq

/-- `if key in updates and updates[key]: merged[key] = updates[key]`. -/
def applyStrUpdate (slot : StrSlot) (u : Option String) : StrSlot :=
  match u with
  | some v => if v ≠ "" then .val v else slot
  | none => slot

/-- `Listener._merge_context` (listener.py lines 442-478): copy the context,
`setdefault` the bookkeeping keys, overwrite each field only with a truthy
update, append notes, and replace the vibe list by the sorted
de-duplicated union when vibes were added. -/
def mergeContext (ctx : PlanContext) (updates : ContextUpdates) : PlanContext :=
  let tn0 : StrSlot := match ctx.timing_note with | .absent => .pynone | s => s
  let notes1 : String :=
    match updates.notes_append with
    | some a =>
      if a ≠ "" then
        let existing := pyStrip ctx.notes
        let addition := pyStrip a
        if existing ≠ "" then pyStrip (existing ++ "\n" ++ addition) else addition
      else ctx.notes
    | none => ctx.notes
  let vibe1 : List String :=
    match updates.vibe_add with
    | [] => ctx.vibe
    | v :: vs =>
      pySortStrings ((ctx.vibe ++ (v :: vs).filter (fun x => x ≠ "")).dedup)
  { ctx with
    destination := applyStrUpdate ctx.destination updates.destination
    timing_note := applyStrUpdate tn0 updates.timing_note
    travel_pace := applyStrUpdate ctx.travel_pace updates.travel_pace
    budget := applyStrUpdate ctx.budget updates.budget
    group_type := applyStrUpdate ctx.group_type updates.group_type
    group_size :=
      match updates.group_size with
      | some n => if n ≠ 0 then .pint n else ctx.group_size
      | none => ctx.group_size
    mood := applyStrUpdate ctx.mood updates.mood
    notes := notes1
    vibe := vibe1 }

/-- `ListenerResult` (listener.py lines 317-326), for message actions. -/
structure ListenerResult where
  action_type : String
  user_message : String
  context_updates : ContextUpdates
  missing_context : List String
  resolved_fields : List String
  trigger_planning : Bool
deriving Repr, DecidableEq

/-- The update-extraction block of `Listener.run` for a chat message
(listener.py lines 362-398), applied to the stripped text. -/
def messageUpdates (text : String) : ContextUpdates :=
  let u0 : ContextUpdates := {}
  let u1 := if text ≠ "" then { u0 with notes_append := some text } else u0
  let u2 :=
    match guessDestination text with
    | some d => { u1 with destination := some d }
    | none => u1
  let u3 :=
    match extractTiming text with
    | some t => { u2 with timing_note := some t }
    | none => u2
  let u4 :=
    match extractVibes text with
    | [] => u3
    | v :: vs => { u3 with vibe_add := v :: vs }
  let u5 :=
    match inferTravelPace text with
    | some p => { u4 with travel_pace := some p }
    | none => u4
  let u6 :=
    match inferBudget text with
    | some b => { u5 with budget := some b }
    | none => u5
  let u7 :=
    match extractGroupType text with
    | some g => { u6 with group_type := some g }
    | none => u6
  let u8 :=
    match extractGroupSize text with
    | some n => { u7 with group_size := some n }
    | none => u7
  match extractMood text with
  | some m => { u8 with mood := some m }
  | none => u8

/-- `Listener.run` (listener.py lines 342-440) specialised to a
`{"type": "message", "text": ...}` action: strip the text, extract
updates, merge, resolve pending fields against the merged context and
detect the missing ones. -/
def listenerRunMessage (rawText : String) (ctx : PlanContext)
    (pending : List String) : ListenerResult :=
  let text := pyStrip rawText
  let user_message := if text ≠ "" then text else "Sharing more trip details."
  let updates := messageUpdates text
  let merged := mergeContext ctx updates
  let resolved := pending.filter (fun f => hasField merged f)
  let missing := detectMissingFields merged pending resolved
  { action_type := "message"
    user_message := user_message
    context_updates := updates
    missing_context := missing
    resolved_fields := resolved
    trigger_planning := false }

/-! ### JSON payloads -/

/-- JSON-like values exchanged with the generation stages. Numeric payloads
are opaque to every operation modelled here, so they are carried as
integers. Objects are insertion-ordered key/value lists, like Python
dicts. -/
inductive JVal where
  | null
  | jbool (b : Bool)
  | num (n : Int)
  | str (s : String)
  | arr (items : List JVal)
  | obj (entries : List (String × JVal))
deriving Repr

/-- `payload.get(k)` on dict entries (first occurrence; dict keys are
unique). -/
def entGet (l : List (String × JVal)) (k : String) : Option JVal :=
  match l with
  | [] => none
  | kv :: rest => if kv.1 = k then some kv.2 else entGet rest k

/-- `k in payload`. -/
def entContains (l : List (String × JVal)) (k : String) : Bool :=
  match l with
  | [] => false
  | kv :: rest => kv.1 = k || entContains rest k

/-- `payload[k] = v`: update in place when the key exists (dicts keep the
position of an existing key), else append. -/
def entSet (l : List (String × JVal)) (k : String) (v : JVal) :
    List (String × JVal) :=
  match l with
  | [] => [(k, v)]
  | kv :: rest => if kv.1 = k then (k, v) :: rest else kv :: entSet rest k v

/-- `payload.pop(k, None)`: drop the key when present. -/
def entPop (l : List (String × JVal)) (k : String) : List (String × JVal) :=
  match l with
  | [] => []
  | kv :: rest => if kv.1 = k then rest else kv :: entPop rest k

/-- `payload.setdefault(k, v)`. -/
def entSetDefault (l : List (String × JVal)) (k : String) (v : JVal) :
    List (String × JVal) :=
  if entContains l k then l else l ++ [(k, v)]

/-- Python truthiness of a JSON value. -/
def jTruthy : JVal → Bool
  | .null => false
  | .jbool b => b
  | .num n => n ≠ 0
  | .str s => s ≠ ""
  | .arr items => !items.isEmpty
  | .obj entries => !entries.isEmpty

/-! ### `TripIntent` as a pydantic model (`src/meguru/schemas.py` lines 49-69) -/

/-- The declared field names of `TripIntent`, in declaration order. The
model configures no `extra` behaviour, so pydantic's default applies:
unknown constructor keys are ignored, and reading an undeclared attribute
raises `AttributeError`. -/
def tripIntentFields : List String :=
  ["destination", "start_date", "end_date", "duration_days", "travelers",
   "travel_pace", "budget", "interests", "must_do", "exclusions",
   "dining_preferences", "lodging_preferences", "notes"]

/-- The one validation alias of `TripIntent`
(`AliasChoices("travel_pace", "pace")`). -/
def tripIntentFieldOf (k : String) : String :=
  if k = "pace" then "travel_pace" else k

/-- Constructing a `TripIntent` from keyword arguments: aliases resolve and
keys that name no declared field are silently dropped (pydantic default
`extra="ignore"`). -/
def tripIntentInit (payload : List (String × JVal)) : List (String × JVal) :=
  (payload.map (fun kv => (tripIntentFieldOf kv.1, kv.2))).filter
    (fun kv => tripIntentFields.contains kv.1)

/-- Attribute access on a constructed `TripIntent`: a declared field reads
its stored value (or its default, immaterial here), an undeclared name
raises `AttributeError`, modelled as `none`. -/
def tripIntentGetAttr (inst : List (String × JVal)) (name : String) : Option JVal :=
  if tripIntentFields.contains name then some ((entGet inst name).getD JVal.null)
  else none

/-! ### Itinerary days and the Refiner (`src/meguru/schemas.py`, `src/meguru/agents/refiner.py`) -/

/-- `ItineraryEvent` (schemas.py lines 305-314); times are carried as their
ISO renderings and the optional attached place by its identifier surrogate. -/
structure ItineraryEvent where
  title : String
  description : Option String := none
  place_id : Option String := none
  start_time : Option String := none
  end_time : Option String := none
  tags : List String := []
deriving Repr, DecidableEq

/-- `DayPlan` (schemas.py lines 317-349); dates are carried as their ISO
renderings (`_coerce_date` never yields an empty string). -/
structure DayPlan where
  label : Option String := none
  date : Option String := none
  summary : Option String := none
  pace : Option String := none
  events : List ItineraryEvent := []
deriving Repr, DecidableEq

/-- `DayPlan()`: the all-defaults placeholder day. -/
def DayPlan.empty : DayPlan := {}

/-- `Itinerary` (schemas.py lines 352-381). -/
structure Itinerary where
  destination : String := ""
  start_date : Option String := none
  end_date : Option String := none
  days : List DayPlan := []
  notes : Option String := none
deriving Repr, DecidableEq

/-- `RefinerResponse` (schemas.py lines 399-404). -/
structure RefinerResponse where
  itinerary : Itinerary
  updated_day : DayPlan
  notes : Option String := none
deriving Repr, DecidableEq

/-- The `while len(self.itinerary.days) <= preferred_index` padding loop of
`ensure_consistency` (schemas.py lines 410-411). -/
def padDays (days : List DayPlan) (i : Nat) : List DayPlan :=
  if days.length ≤ i then padDays (days ++ [DayPlan.empty]) i else days
termination_by i + 1 - days.length
decreasing_by
  simp only [List.length_append, List.length_cons, List.length_nil]
  omega

/-- The date/label matching loop of `ensure_consistency` (schemas.py lines
415-421): replace the first day whose (truthy) date, else label, matches
the updated day. -/
def placeUpdatedDay (upd : DayPlan) : List DayPlan → Option (List DayPlan)
  | [] => none
  | d :: rest =>
    if d.date.isSome && upd.date.isSome && d.date = upd.date then some (upd :: rest)
    else if truthyOptStr d.label && truthyOptStr upd.label && d.label = upd.label then
      some (upd :: rest)
    else (placeUpdatedDay upd rest).map (fun tail => d :: tail)

/-- `RefinerResponse.ensure_consistency` (schemas.py lines 406-423) acting
on the day list: with a preferred index, pad with empty days until the
index exists and overwrite it; otherwise replace a matching day or append. -/
def ensureConsistencyDays (days : List DayPlan) (upd : DayPlan) :
    Option Nat → List DayPlan
  | some i => (padDays days i).set i upd
  | none =>
    match placeUpdatedDay upd days with
    | some replaced => replaced
    | none => days ++ [upd]

/-- `RefinerResponse.ensure_consistency` on the full response value. -/
def RefinerResponse.ensureConsistency (r : RefinerResponse)
    (preferred : Option Nat) : RefinerResponse :=
  { r with itinerary :=
      { r.itinerary with
        days := ensureConsistencyDays r.itinerary.days r.updated_day preferred } }

/-! ### LLM call protocol (`src/meguru/core/llm.py`, `src/meguru/agents/__init__.py`) -/

/-- Outcome of one `LLMClient.chat` call followed by `extract_content`:
the transport can raise (`netError`), the response can lack choices or
content (both `ValueError` in `extract_content`), or a content string is
returned. -/
inductive ChatResult where
  | netError
  | noChoices
  | noContent
  | content (s : String)
deriving Repr, DecidableEq

/-- Failures that can escape `llm_json`. -/
inductive LlmFailure where
  | network
  | value
  | malformed
deriving Repr, DecidableEq

/-- `llm_json` (llm.py lines 120-149). `chat` is the backing client keyed
by its `force_json` argument, `parse` is `json.loads` (`none` models
`JSONDecodeError`). Returns the result and the log of `force_json` flags,
one per chat call: only a `JSONDecodeError` on the first response triggers
the single forced-JSON retry; transport and content errors propagate, as
does a second `JSONDecodeError`. -/
def llmJson {J : Type} (parse : String → Option J) (chat : Bool → ChatResult) :
    Except LlmFailure J × List Bool :=
  match chat false with
  | .netError => (.error .network, [false])
  | .noChoices => (.error .value, [false])
  | .noContent => (.error .value, [false])
  | .content s =>
    match parse s with
    | some j => (.ok j, [false])
    | none =>
      match chat true with
      | .netError => (.error .network, [false, true])
      | .noChoices => (.error .value, [false, true])
      | .noContent => (.error .value, [false, true])
      | .content s2 =>
        match parse s2 with
        | some j => (.ok j, [false, true])
        | none => (.error .malformed, [false, true])

/-- Failures that can escape `call_llm_and_validate`
(`src/meguru/agents/__init__.py` lines 40-63): an `llm_json` failure, or
an `AgentExecutionError` wrapping a schema `ValidationError`. -/
inductive AgentFailure where
  | llm (e : LlmFailure)
  | execution (msg : String)
deriving Repr, DecidableEq

/-- `call_llm_and_validate`: run `llm_json`, then validate the payload once
against the target schema; a validation failure is wrapped, never
retried. -/
def callLlmAndValidate {J T : Type} (parse : String → Option J)
    (chat : Bool → ChatResult) (validate : J → Except String T) :
    Except AgentFailure T × List Bool :=
  match llmJson parse chat with
  | (.error e, log) => (.error (.llm e), log)
  | (.ok j, log) =>
    match validate j with
    | .ok t => (.ok t, log)
    | .error msg => (.error (.execution msg), log)

/-! ### Research-corpus normalisation (`src/meguru/schemas.py` lines 72-258) -/

/-- A character kept by `_slugify` (`[a-z0-9]` after lower-casing). -/
def isSlugKeep (c : Char) : Bool :=
  (97 ≤ c.toNat && c.toNat ≤ 122) || c.isDigit

/-- Collapse runs of hyphens to a single hyphen (the two `re.sub` passes of
`_slugify` together replace every run of non-alphanumerics by one `-`). -/
def collapseDashAux : Bool → List Char → List Char
  | _, [] => []
  | prevDash, c :: rest =>
    if c = '-' then
      if prevDash then collapseDashAux true rest
      else '-' :: collapseDashAux true rest
    else c :: collapseDashAux false rest

/-- `_slugify` (schemas.py lines 72-78). -/
def slugify (value : String) : String :=
  let lowered := pyLower (pyStrip value)
  let dashed := String.mk (collapseDashAux false
    (lowered.toList.map (fun c => if isSlugKeep c then c else '-')))
  pyStripChars ['-'] dashed

/-- `re.split(r"[\n,]+", s)` on raw separators (empties filtered later). -/
def splitCommaNewlineAux : List Char → List Char → List String
  | cur, [] => [String.mk cur.reverse]
  | cur, c :: rest =>
    if c = '\n' || c = ',' then String.mk cur.reverse :: splitCommaNewlineAux [] rest
    else splitCommaNewlineAux (c :: cur) rest

/-- The string-to-list coercion of `_ensure_list` (schemas.py line 119):
split on newline/comma runs, strip, drop empties. -/
def ensureListParts (s : String) : List String :=
  ((splitCommaNewlineAux [] s.toList).map pyStrip).filter (fun p => p ≠ "")

/-- `_ensure_list` for one key (schemas.py lines 113-122): a string value
becomes the split list (tuples do not occur in JSON payloads). -/
def ensureListKey (payload : List (String × JVal)) (k : String) :
    List (String × JVal) :=
  if !(entContains payload k) then payload
  else
    match entGet payload k with
    | some (.str s) => entSet payload k (.arr ((ensureListParts s).map JVal.str))
    | _ => payload

/-- Python `str(value)` for the payload fragments the normaliser renders;
the container renderings stand in for `repr` and are never reached by the
payloads this development evaluates. -/
def jStr : JVal → String
  | .str s => s
  | .num n => toString n
  | .jbool b => if b then "True" else "False"
  | .null => "None"
  | .arr _ => "[...]"
  | .obj _ => "\x7b...\x7d"

/-- The source/target pairs moved from the item into its nested place
(schemas.py lines 130-134). -/
def coerceMoveSources : List (String × String) :=
  [("name", "name"), ("address", "formatted_address"),
   ("formatted_address", "formatted_address")]

/-- One step of the move loop (schemas.py lines 135-136):
`place_data.setdefault(target, payload.pop(source))` for a truthy source. -/
def coerceMoveStep (st : List (String × JVal) × List (String × JVal))
    (kv : String × String) : List (String × JVal) × List (String × JVal) :=
  if entContains st.1 kv.1 && jTruthy ((entGet st.1 kv.1).getD .null) then
    (entPop st.1 kv.1, entSetDefault st.2 kv.2 ((entGet st.1 kv.1).getD .null))
  else st

/-- The slug sources of the place-id synthesis (schemas.py lines 150-171):
place name and address, else the summary/description, else the first
non-blank string highlight; slugified with a `generated-` mark. -/
def coerceSlugCandidate (payload : List (String × JVal))
    (placePayload : Option (List (String × JVal))) : Option JVal :=
  let place := placePayload.getD []
  let parts0 : List String :=
    if jTruthy ((entGet place "name").getD .null) then
      [jStr ((entGet place "name").getD .null)]
    else []
  let parts1 := parts0 ++
    (if jTruthy ((entGet place "formatted_address").getD .null) then
      [jStr ((entGet place "formatted_address").getD .null)]
    else [])
  let summaryV : JVal :=
    if jTruthy ((entGet payload "summary").getD .null) then
      (entGet payload "summary").getD .null
    else (entGet payload "description").getD .null
  let parts2 :=
    if jTruthy summaryV && parts1.isEmpty then parts1 ++ [jStr summaryV] else parts1
  let parts3 :=
    if parts2.isEmpty then
      match entGet payload "highlights" with
      | some (.arr items) =>
        let hs := items.filterMap (fun it =>
          match it with
          | .str s => if pyStrip s ≠ "" then some s else none
          | _ => none)
        match hs with
        | [] => parts2
        | h :: _ => parts2 ++ [h]
      | _ => parts2
    else parts2
  match parts3 with
  | [] => none
  | _ =>
    let slug := slugify (pyJoin " " parts3)
    if slug ≠ "" then some (.str ("generated-" ++ slug)) else none

/-- The nested place dict of a payload (`payload.get("place")` when it is a
dict, else an absent value). -/
def entPlaceObj (payload : List (String × JVal)) : Option (List (String × JVal)) :=
  match entGet payload "place" with
  | some (.obj pl) => some pl
  | _ => none

/-- As `entPlaceObj`, but defaulting to the empty dict (schemas.py lines
127-128). -/
def entPlaceObj0 (payload : List (String × JVal)) : List (String × JVal) :=
  match entGet payload "place" with
  | some (.obj pl) => pl
  | _ => []

/-- The `address`/`formatted_address` rename inside the nested place
(schemas.py lines 139-140). -/
def renameAddress (place : List (String × JVal)) : List (String × JVal) :=
  if entContains place "address" && !(entContains place "formatted_address") then
    entSet (entPop place "address") "formatted_address"
      ((entGet place "address").getD JVal.null)
  else place

/-- Write the hoisted place back into the item when it is non-empty
(schemas.py lines 138-141). -/
def applyHoist (st : List (String × JVal) × List (String × JVal)) :
    List (String × JVal) :=
  if !st.2.isEmpty then entSet st.1 "place" (.obj (renameAddress st.2))
  else st.1

/-- The place-hoisting block of `_coerce_llm_variants` (schemas.py lines
127-141): move truthy name/address fields from the item into its nested
place and write the result back. -/
def hoistPlaceFields (payload : List (String × JVal)) : List (String × JVal) :=
  applyHoist (coerceMoveSources.foldl coerceMoveStep (payload, entPlaceObj0 payload))

/-- The `if not payload.get("place_id")` branch (schemas.py lines 145-177):
adopt the nested place id when truthy, else synthesize a slug candidate;
store the winner on the item and on an id-less nested place. -/
def syncMissingId (payload : List (String × JVal))
    (placePayload : Option (List (String × JVal))) : List (String × JVal) :=
  match
    (if jTruthy ((placePayload.bind (fun pl => entGet pl "place_id")).getD JVal.null)
     then placePayload.bind (fun pl => entGet pl "place_id")
     else coerceSlugCandidate payload placePayload) with
  | some cand =>
    let payload2 := entSet payload "place_id" cand
    (match entGet payload2 "place" with
     | some (.obj pl) =>
       if !(jTruthy ((entGet pl "place_id").getD JVal.null)) then
         entSet payload2 "place" (.obj (entSet pl "place_id" cand))
       else payload2
     | _ => payload2)
  | none => payload

/-- The `elif` branch (schemas.py lines 178-179): copy the item id onto an
id-less nested place. -/
def syncPlaceFromItem (payload : List (String × JVal))
    (placePayload : Option (List (String × JVal))) : List (String × JVal) :=
  match placePayload with
  | some pl =>
    if !(jTruthy ((entGet pl "place_id").getD JVal.null)) then
      entSet payload "place"
        (.obj (entSet pl "place_id" ((entGet payload "place_id").getD JVal.null)))
    else payload
  | none => payload

/-- The place-id synchronisation of `_coerce_llm_variants` (schemas.py lines
143-179). -/
def coercePlaceIdSync (payload : List (String × JVal)) : List (String × JVal) :=
  if !(jTruthy ((entGet payload "place_id").getD JVal.null)) then
    syncMissingId payload (entPlaceObj payload)
  else
    syncPlaceFromItem payload (entPlaceObj payload)

/-- `ResearchItem._coerce_llm_variants` (schemas.py lines 103-181): list
coercion for the highlight/tag aliases, hoisting of name/address into the
nested place, then synthesis/propagation of the place id. Non-dict data is
returned untouched. -/
def coerceLlmVariants (data : JVal) : JVal :=
  match data with
  | .obj entries =>
    .obj (coercePlaceIdSync (hoistPlaceFields
      (["highlights", "reasons", "why", "tags", "themes"].foldl ensureListKey entries)))
  | _ => data

/-- The per-item cleaning of `_normalise_bucket` (schemas.py lines 220-224):
dict items run through `_coerce_llm_variants`, everything else is kept. -/
def cleanBucketItem (item : JVal) : JVal :=
  match item with
  | .obj es => coerceLlmVariants (.obj es)
  | other => other

/-- `_normalise_bucket` (schemas.py lines 197-230): find the first present
alias, coerce its value to a list, clean each dict item, store under the
canonical key and pop the other aliases. -/
def normaliseBucket (keys : List String) (payload : List (String × JVal)) :
    List (String × JVal) :=
  match keys.find? (fun k => entContains payload k) with
  | none => payload
  | some sourceKey =>
    let canonicalKey := keys.headD ""
    let raw := (entGet payload sourceKey).getD .null
    let normalised : List JVal :=
      match raw with
      | .null => []
      | .obj es => [.obj es]
      | .arr items => items
      | other => [other]
    let cleaned := normalised.map cleanBucketItem
    let payload2 := entSet payload canonicalKey (.arr cleaned)
    (keys.filter (fun k => k ≠ canonicalKey)).foldl entPop payload2

/-- `ResearchCorpus._normalise_research_buckets` (schemas.py lines 187-236):
normalise the lodging, dining and experience buckets of a dict payload. -/
def normaliseResearchBuckets (data : JVal) : JVal :=
  match data with
  | .obj payload =>
    .obj (normaliseBucket ["experiences", "activities", "things_to_do"]
      (normaliseBucket ["dining", "restaurants", "food"]
        (normaliseBucket ["lodgings", "lodging", "stays"] payload)))
  | _ => data

/-- `Place` (schemas.py lines 20-38); numeric payloads (coordinates,
ratings, price levels) are opaque to the whole pipeline and carried as
integers, matching `JVal.num`. -/
structure Place where
  place_id : String
  name : String
  formatted_address : Option String := none
  latitude : Option Int := none
  longitude : Option Int := none
  rating : Option Int := none
  user_ratings_total : Option Int := none
  types : List String := []
  price_level : Option Int := none
  business_status : Option String := none
  website : Option String := none
  phone_number : Option String := none
  google_maps_url : Option String := none
  photo_reference : Option String := none
deriving Repr, DecidableEq

/-- `ResearchItem` (schemas.py lines 81-101). -/
structure ResearchItem where
  place_id : String
  place : Option Place := none
  summary : Option String := none
  highlights : List String := []
  suitability : Option String := none
  tags : List String := []
deriving Repr, DecidableEq

/-- `ResearchCorpus` (schemas.py lines 184-258). -/
structure ResearchCorpus where
  lodgings : List ResearchItem := []
  dining : List ResearchItem := []
  experiences : List ResearchItem := []
  other : List ResearchItem := []
deriving Repr, DecidableEq

/-- `ResearchCorpus.items`: every item across the four buckets. -/
def ResearchCorpus.items (c : ResearchCorpus) : List ResearchItem :=
  c.lodgings ++ c.dining ++ c.experiences ++ c.other

/-- An item in canonical form: its place id has been resolved or
synthesized (non-empty), and so has the id of its embedded place. -/
def canonicalItem (it : ResearchItem) : Bool :=
  it.place_id ≠ "" &&
    (match it.place with
     | none => true
     | some p => p.place_id ≠ "")

/-- A corpus in canonical form. -/
def canonicalCorpus (c : ResearchCorpus) : Bool :=
  c.items.all canonicalItem

/-- `none ↦ null`, `some ↦ str` (pydantic JSON dump of an optional string). -/
def jOptStr : Option String → JVal
  | none => .null
  | some s => .str s

/-- `none ↦ null`, `some ↦ num`. -/
def jOptNum : Option Int → JVal
  | none => .null
  | some n => .num n

/-- `Place.model_dump(mode="json")`, keys in field-declaration order. -/
def serialisePlace (p : Place) : JVal :=
  .obj [("place_id", .str p.place_id), ("name", .str p.name),
        ("formatted_address", jOptStr p.formatted_address),
        ("latitude", jOptNum p.latitude), ("longitude", jOptNum p.longitude),
        ("rating", jOptNum p.rating),
        ("user_ratings_total", jOptNum p.user_ratings_total),
        ("types", .arr (p.types.map JVal.str)),
        ("price_level", jOptNum p.price_level),
        ("business_status", jOptStr p.business_status),
        ("website", jOptStr p.website),
        ("phone_number", jOptStr p.phone_number),
        ("google_maps_url", jOptStr p.google_maps_url),
        ("photo_reference", jOptStr p.photo_reference)]

/-- `ResearchItem.model_dump(mode="json")`. -/
def serialiseItem (it : ResearchItem) : JVal :=
  .obj [("place_id", .str it.place_id),
        ("place", match it.place with | none => .null | some p => serialisePlace p),
        ("summary", jOptStr it.summary),
        ("highlights", .arr (it.highlights.map JVal.str)),
        ("suitability", jOptStr it.suitability),
        ("tags", .arr (it.tags.map JVal.str))]

/-- `ResearchCorpus.model_dump(mode="json")`. -/
def serialiseCorpus (c : ResearchCorpus) : JVal :=
  .obj [("lodgings", .arr (c.lodgings.map serialiseItem)),
        ("dining", .arr (c.dining.map serialiseItem)),
        ("experiences", .arr (c.experiences.map serialiseItem)),
        ("other", .arr (c.other.map serialiseItem))]

/-! ### Trip pipeline research cache (`src/meguru/workflows/trip_pipeline.py`) -/

/-- `Traveler` (schemas.py lines 41-46). -/
structure Traveler where
  name : Option String := none
  age : Option Nat := none
  notes : Option String := none
deriving Repr, DecidableEq

/-- `TripIntent` (schemas.py lines 49-69): exactly the declared fields;
dates are carried as their ISO renderings, which is what
`model_dump(mode="json")` emits. -/
structure TripIntent where
  destination : String
  start_date : Option String := none
  end_date : Option String := none
  duration_days : Option Nat := none
  travelers : List Traveler := []
  travel_pace : Option String := none
  budget : Option String := none
  interests : List String := []
  must_do : List String := []
  exclusions : List String := []
  dining_preferences : List String := []
  lodging_preferences : List String := []
  notes : Option String := none
deriving Repr, DecidableEq

/-- The escaping of `json.dumps` for the characters that occur here. -/
def jsonEscapeChar (c : Char) : List Char :=
  if c = '"' then ['\\', '"']
  else if c = '\\' then ['\\', '\\']
  else if c = '\n' then ['\\', 'n']
  else if c = '\t' then ['\\', 't']
  else if c = '\r' then ['\\', 'r']
  else [c]

/-- `json.dumps` of a string. -/
def jsonStrLit (s : String) : String :=
  "\"" ++ String.mk (s.toList.foldr (fun c acc => jsonEscapeChar c ++ acc) []) ++ "\""

/-- `json.dumps` of an optional string. -/
def jsonOptStr : Option String → String
  | none => "null"
  | some s => jsonStrLit s

/-- `json.dumps` of an optional number. -/
def jsonOptNat : Option Nat → String
  | none => "null"
  | some n => toString n

/-- `json.dumps` of a list of strings. -/
def jsonStrList (xs : List String) : String :=
  "[" ++ pyJoin ", " (xs.map jsonStrLit) ++ "]"

/-- `json.dumps(traveler_dump, sort_keys=True)`: keys age, name, notes. -/
def dumpTraveler (t : Traveler) : String :=
  "\x7b\"age\": " ++ jsonOptNat t.age ++ ", \"name\": " ++ jsonOptStr t.name ++
    ", \"notes\": " ++ jsonOptStr t.notes ++ "\x7d"

/-- `_cache_key` (trip_pipeline.py lines 24-28):
`json.dumps(intent.model_dump(mode="json"), sort_keys=True)`, with the
thirteen `TripIntent` keys in sorted order. -/
def cacheKey (intent : TripIntent) : String :=
  "\x7b\"budget\": " ++ jsonOptStr intent.budget ++
  ", \"destination\": " ++ jsonStrLit intent.destination ++
  ", \"dining_preferences\": " ++ jsonStrList intent.dining_preferences ++
  ", \"duration_days\": " ++ jsonOptNat intent.duration_days ++
  ", \"end_date\": " ++ jsonOptStr intent.end_date ++
  ", \"exclusions\": " ++ jsonStrList intent.exclusions ++
  ", \"interests\": " ++ jsonStrList intent.interests ++
  ", \"lodging_preferences\": " ++ jsonStrList intent.lodging_preferences ++
  ", \"must_do\": " ++ jsonStrList intent.must_do ++
  ", \"notes\": " ++ jsonOptStr intent.notes ++
  ", \"start_date\": " ++ jsonOptStr intent.start_date ++
  ", \"travel_pace\": " ++ jsonOptStr intent.travel_pace ++
  ", \"travelers\": [" ++ pyJoin ", " (intent.travelers.map dumpTraveler) ++ "]" ++
  "\x7d"

/-- `_RESEARCH_CACHE.get(key)`. -/
def cacheLookup : List (String × ResearchCorpus) → String → Option ResearchCorpus
  | [], _ => none
  | kv :: rest, k => if kv.1 = k then some kv.2 else cacheLookup rest k

/-- `_RESEARCH_CACHE[key] = corpus`. -/
def cacheInsert (l : List (String × ResearchCorpus)) (k : String)
    (v : ResearchCorpus) : List (String × ResearchCorpus) :=
  match l with
  | [] => [(k, v)]
  | kv :: rest => if kv.1 = k then (k, v) :: rest else kv :: cacheInsert rest k v

/-- `_run_research` (trip_pipeline.py lines 77-89) as a state transformer:
`agent` is `ResearcherAgent().run`; the returned Boolean records whether
the agent was invoked (`false` on a cache hit). The deep copies taken on
store and on cache hits are identities on these pure values. -/
def runResearch (agent : TripIntent → ResearchCorpus)
    (cache : List (String × ResearchCorpus)) (intent : TripIntent) :
    ResearchCorpus × List (String × ResearchCorpus) × Bool :=
  let key := cacheKey intent
  match cacheLookup cache key with
  | some cached => (cached, cache, false)
  | none =>
    let corpus := agent intent
    (corpus, cacheInsert cache key corpus, true)

/-- `clear_research_cache` (trip_pipeline.py lines 51-54). -/
def clearResearchCache (_cache : List (String × ResearchCorpus)) :
    List (String × ResearchCorpus) := []

/-- The missing-context computation of `Listener.run` (listener.py lines
427-431): pending fields are resolved against the merged context, the rest
re-reported. -/
def listenerMissing (ctx : PlanContext) (pending : List String) : List String :=
  detectMissingFields ctx pending (pending.filter (fun f => hasField ctx f))

/-- The example chat message of the specification (the apostrophe is built
by code point). -/
def kyotoMsg : String :=
  "We" ++ String.singleton aposChar ++
    "re a couple heading to Kyoto in November, craving nightlife and food"

/-- The keyword arguments of the failing `TripIntent` construction: a
destination plus saved and liked selection lists (the shape
`src/meguru/ui/plan.py` passes and `PlannerAgent.run` reads back). -/
def c1Payload : List (String × JVal) :=
  [("destination", .str "Kyoto"),
   ("saved_inspirations", .arr [.obj [("id", .str "gamma")]]),
   ("liked_inspirations", .arr [.obj [("id", .str "delta")]])]

/-! ### Concrete inputs used by the witnesses below -/

/-- A two-day itinerary response for the refiner placement example. -/
def c2Example : RefinerResponse :=
  { itinerary :=
      { destination := "Kyoto",
        days := [{ label := some "Day 1" }, { label := some "Day 2" }] }
    updated_day := { label := some "Updated", summary := some "rebuilt evening" } }

/-- The intent used twice against the research cache. -/
def c3Intent : TripIntent := { destination := "Kyoto", interests := ["culture", "food"] }

/-- A deterministic stand-in for `ResearcherAgent().run`. -/
def c3Agent : TripIntent → ResearchCorpus := fun _ => { lodgings := [{ place_id := "stay-1" }] }

/-- A held brief whose vibes the next update replaces. -/
def c4Held : TripBrief := { vibes := ["Nightlife"] }

/-- An update carrying one new vibe and nothing else. -/
def c4State : BriefState := { vibe := some ["Foodie adventures"] }

/-- An update whose vibe list contains a case-insensitive duplicate. -/
def c4WitState : BriefState :=
  { vibe := some ["Foodie adventures", " foodie ADVENTURES ", "Nightlife"] }

/-- A first update that sets an explicit tone. -/
def c5First : BriefState := { tone := some "upbeat" }

/-- A second update that omits the tone but carries a mood. -/
def c5Second : BriefState := { mood := some "peaceful" }

/-- A brief with sticky values an empty update must preserve. -/
def c5WitBrief : TripBrief :=
  { destination := some "Kyoto", tone := some "upbeat", vibes := ["Nightlife"] }

/-- A `json.loads` stand-in accepting exactly the string "42". -/
def c7Parse : String → Option Nat := fun s => if s = "42" then some 42 else none

/-- A chat backend whose plain call returns malformed content and whose
forced-JSON retry returns well-formed content. -/
def c7Chat : Bool → ChatResult := fun b => if b then .content "42" else .content "not json"

/-- A validator that accepts every payload. -/
def c7Validate : Nat → Except String Nat := fun n => .ok n

/-- A canonical research item with a fully resolved nested place. -/
def c8Item : ResearchItem :=
  { place_id := "places/123",
    place := some ({ place_id := "places/123", name := "Freehand" } : Place),
    summary := some "stylish stay", highlights := ["rooftop", "bar"],
    tags := ["lodging"] }

/-- A canonical corpus exercising every bucket. -/
def c8Corpus : ResearchCorpus :=
  { lodgings := [c8Item],
    dining := [{ place_id := "generated-omni" }],
    experiences := [],
    other := [{ place_id := "misc-1" }] }

/-! ### Helper lemmas -/

theorem pyOrOpt_isSome {α : Type} (x y : Option α) (h : y.isSome) :
    (pyOrOpt x y).isSome := by
  cases x <;> simp [pyOrOpt, h]

theorem pyOrList_ne_nil {α : Type} (x y : List α) (h : y ≠ []) : pyOrList x y ≠ [] := by
  cases x <;> simp [pyOrList, h]

theorem padDays_eq (days : List DayPlan) (i : Nat) :
    padDays days i = days ++ List.replicate (i + 1 - days.length) DayPlan.empty := by
  induction days, i using padDays.induct with
  | case1 days i h ih =>
    rw [padDays, if_pos h, ih]
    have hlen : i + 1 - days.length = (i + 1 - (days ++ [DayPlan.empty]).length) + 1 := by
      simp only [List.length_append, List.length_cons, List.length_nil]
      omega
    rw [List.append_assoc, hlen, List.replicate_succ]
    rfl
  | case2 days i h =>
    rw [padDays, if_neg h]
    have hz : i + 1 - days.length = 0 := by omega
    simp [hz]

theorem getElemOpt_set_self {α : Type} (l : List α) (i : Nat) (a : α) (h : i < l.length) :
    (l.set i a).get? i = some a := by
  induction l generalizing i with
  | nil => simp at h
  | cons x xs ih =>
    cases i with
    | zero => rfl
    | succ k => simpa using ih k (by simpa using h)

theorem getElemOpt_set_other {α : Type} (l : List α) (i j : Nat) (a : α) (h : j ≠ i) :
    (l.set i a).get? j = l.get? j := by
  induction l generalizing i j with
  | nil => simp
  | cons x xs ih =>
    cases i with
    | zero => cases j with
      | zero => omega
      | succ m => rfl
    | succ k => cases j with
      | zero => rfl
      | succ m => simpa using ih k m (by omega)

theorem getElemOpt_replicate {α : Type} (a : α) (n m : Nat) (h : m < n) :
    (List.replicate n a).get? m = some a := by
  induction n generalizing m with
  | zero => omega
  | succ k ih =>
    cases m with
    | zero => rfl
    | succ j => simpa [List.replicate_succ] using ih j (by omega)

theorem getElemOpt_append_left {α : Type} (l1 l2 : List α) (j : Nat) (h : j < l1.length) :
    (l1 ++ l2).get? j = l1.get? j := by
  induction l1 generalizing j with
  | nil => simp at h
  | cons x xs ih =>
    cases j with
    | zero => rfl
    | succ k => simpa using ih k (by simpa using h)

theorem getElemOpt_append_right {α : Type} (l1 l2 : List α) (j : Nat) (h : l1.length ≤ j) :
    (l1 ++ l2).get? j = l2.get? (j - l1.length) := by
  induction l1 generalizing j with
  | nil => simp
  | cons x xs ih =>
    cases j with
    | zero => simp at h
    | succ k => simpa [Nat.succ_sub_succ] using ih k (by simpa using h)

theorem cacheLookup_cacheInsert_self (c : List (String × ResearchCorpus)) (k : String)
    (v : ResearchCorpus) : cacheLookup (cacheInsert c k v) k = some v := by
  induction c with
  | nil => simp [cacheInsert, cacheLookup]
  | cons kv rest ih =>
    by_cases h : kv.1 = k
    · simp [cacheInsert, cacheLookup, h]
    · simp [cacheInsert, cacheLookup, h, ih]

theorem listener_pending_filter (pending : List String) (p : String → Bool) :
    pending.filter (fun f => !((pending.filter p).contains f))
      = pending.filter (fun f => !(p f)) := by
  apply List.filter_congr
  intro f hf
  by_cases hp : p f
  · have hmem : f ∈ pending.filter p := List.mem_filter.mpr ⟨hf, hp⟩
    simp [hp, hmem]
  · have hmem : f ∉ pending.filter p := by
      intro hc; exact hp (List.mem_filter.mp hc).2
    simp [hp, hmem]

theorem entSet_self (l : List (String × JVal)) (k : String) (v : JVal)
    (h : entGet l k = some v) : entSet l k v = l := by
  induction l with
  | nil => simp [entGet] at h
  | cons kv rest ih =>
    by_cases hk : kv.1 = k
    · rw [entGet, if_pos hk] at h
      rw [entSet, if_pos hk]
      cases h
      rw [← hk]
    · rw [entGet, if_neg hk] at h
      rw [entSet, if_neg hk, ih h]

theorem ensureListKey_of_not_str (payload : List (String × JVal)) (k : String)
    (h : ∀ s, entGet payload k ≠ some (.str s)) : ensureListKey payload k = payload := by
  rw [ensureListKey]
  by_cases hc : entContains payload k
  · rw [if_neg (by simp [hc])]
    cases hg : entGet payload k with
    | none => rfl
    | some v => cases v <;> first | rfl | exact absurd hg (h _)
  · rw [if_pos (by simp [hc])]

theorem hoistPlaceFields_id (payload : List (String × JVal))
    (hn : entContains payload "name" = false)
    (ha : entContains payload "address" = false)
    (hf : entContains payload "formatted_address" = false)
    (hpl : entGet payload "place" = some JVal.null ∨
      ∃ pl, entGet payload "place" = some (.obj pl) ∧ pl ≠ [] ∧
        entContains pl "address" = false) :
    hoistPlaceFields payload = payload := by
  have hmoved : coerceMoveSources.foldl coerceMoveStep (payload, entPlaceObj0 payload)
      = (payload, entPlaceObj0 payload) := by
    simp only [coerceMoveSources, List.foldl_cons, List.foldl_nil, coerceMoveStep,
      hn, ha, hf, Bool.false_and, Bool.false_eq_true, if_false]
  rw [hoistPlaceFields, hmoved]
  rcases hpl with hnull | ⟨pl, hobj, hne, hplA⟩
  · have h0 : entPlaceObj0 payload = [] := by rw [entPlaceObj0, hnull]
    rw [applyHoist, h0]
    simp
  · have h0 : entPlaceObj0 payload = pl := by rw [entPlaceObj0, hobj]
    have hrn : renameAddress pl = pl := by
      rw [renameAddress, if_neg (by simp [hplA])]
    rw [applyHoist, h0, if_pos (by simpa using hne), hrn, entSet_self _ _ _ hobj]

theorem coercePlaceIdSync_of_truthy (payload : List (String × JVal))
    (h1 : jTruthy ((entGet payload "place_id").getD JVal.null) = true)
    (h2 : ∀ pl, entPlaceObj payload = some pl →
      jTruthy ((entGet pl "place_id").getD JVal.null) = true) :
    coercePlaceIdSync payload = payload := by
  rw [coercePlaceIdSync, h1]
  simp only [Bool.not_true, Bool.false_eq_true, if_false]
  cases hpl : entPlaceObj payload with
  | none => rfl
  | some pl =>
    show (if (!jTruthy ((entGet pl "place_id").getD JVal.null)) = true then
        entSet payload "place"
          (.obj (entSet pl "place_id" ((entGet payload "place_id").getD JVal.null)))
      else payload) = payload
    rw [h2 pl hpl]
    simp

theorem coerce_obj_canonical (pid : String) (placeV smv suv : JVal)
    (hsv tsv : List JVal) (hid : pid ≠ "")
    (hplace : placeV = JVal.null ∨
      ∃ ppid pentries, placeV = JVal.obj (("place_id", JVal.str ppid) :: pentries) ∧
        ppid ≠ "" ∧
        entContains (("place_id", JVal.str ppid) :: pentries) "address" = false) :
    coerceLlmVariants (JVal.obj
      [("place_id", JVal.str pid), ("place", placeV), ("summary", smv),
       ("highlights", JVal.arr hsv), ("suitability", suv), ("tags", JVal.arr tsv)])
    = JVal.obj
      [("place_id", JVal.str pid), ("place", placeV), ("summary", smv),
       ("highlights", JVal.arr hsv), ("suitability", suv), ("tags", JVal.arr tsv)] := by
  have htr : jTruthy (JVal.str pid) = true := by simp [jTruthy, hid]
  rw [coerceLlmVariants]
  have hfold : ["highlights", "reasons", "why", "tags", "themes"].foldl ensureListKey
      [("place_id", JVal.str pid), ("place", placeV), ("summary", smv),
       ("highlights", JVal.arr hsv), ("suitability", suv), ("tags", JVal.arr tsv)]
      = [("place_id", JVal.str pid), ("place", placeV), ("summary", smv),
       ("highlights", JVal.arr hsv), ("suitability", suv), ("tags", JVal.arr tsv)] := rfl
  rw [hfold]
  rcases hplace with hnull | ⟨ppid, pentries, hobj, hppid, hpadr⟩
  · subst hnull
    rw [hoistPlaceFields_id
      [("place_id", JVal.str pid), ("place", JVal.null), ("summary", smv),
       ("highlights", JVal.arr hsv), ("suitability", suv), ("tags", JVal.arr tsv)]
      rfl rfl rfl (Or.inl rfl)]
    rw [coercePlaceIdSync_of_truthy
      [("place_id", JVal.str pid), ("place", JVal.null), ("summary", smv),
       ("highlights", JVal.arr hsv), ("suitability", suv), ("tags", JVal.arr tsv)]
      htr]
    intro pl hpl
    simp [entPlaceObj, entGet] at hpl
  · subst hobj
    rw [hoistPlaceFields_id
      [("place_id", JVal.str pid),
       ("place", JVal.obj (("place_id", JVal.str ppid) :: pentries)),
       ("summary", smv), ("highlights", JVal.arr hsv), ("suitability", suv),
       ("tags", JVal.arr tsv)]
      rfl rfl rfl
      (Or.inr ⟨("place_id", JVal.str ppid) :: pentries, rfl, by simp, hpadr⟩)]
    rw [coercePlaceIdSync_of_truthy
      [("place_id", JVal.str pid),
       ("place", JVal.obj (("place_id", JVal.str ppid) :: pentries)),
       ("summary", smv), ("highlights", JVal.arr hsv), ("suitability", suv),
       ("tags", JVal.arr tsv)]
      htr]
    intro pl hpl
    have hpl2 : pl = ("place_id", JVal.str ppid) :: pentries := by
      rw [entPlaceObj] at hpl
      simp only [entGet] at hpl
      simp at hpl
      exact hpl.symm
    subst hpl2
    simpa [entGet, jTruthy] using hppid

theorem coerce_serialised_item (it : ResearchItem) (h : canonicalItem it = true) :
    coerceLlmVariants (serialiseItem it) = serialiseItem it := by
  obtain ⟨pid, pl, sm, hs, su, ts⟩ := it
  have hid : pid ≠ "" := by
    rw [canonicalItem, Bool.and_eq_true] at h
    exact of_decide_eq_true h.1
  cases pl with
  | none =>
    exact coerce_obj_canonical pid JVal.null (jOptStr sm) (jOptStr su)
      (hs.map JVal.str) (ts.map JVal.str) hid (Or.inl rfl)
  | some p =>
    have hpid : p.place_id ≠ "" := by
      rw [canonicalItem, Bool.and_eq_true] at h
      exact of_decide_eq_true h.2
    exact coerce_obj_canonical pid (serialisePlace p) (jOptStr sm) (jOptStr su)
      (hs.map JVal.str) (ts.map JVal.str) hid
      (Or.inr ⟨p.place_id, _, rfl, hpid, rfl⟩)

theorem cleanBucketItem_serialised (its : List ResearchItem)
    (h : ∀ it ∈ its, canonicalItem it = true) :
    (its.map serialiseItem).map cleanBucketItem = its.map serialiseItem := by
  induction its with
  | nil => rfl
  | cons it rest ih =>
    simp only [List.map_cons, List.cons.injEq]
    constructor
    · exact (rfl :
        cleanBucketItem (serialiseItem it) = coerceLlmVariants (serialiseItem it)).trans
        (coerce_serialised_item it (h it (by simp)))
    · exact ih (fun x hx => h x (by simp [hx]))

theorem normaliseBucket_lodgings_step (L : List JVal) (b c d : JVal) :
    normaliseBucket ["lodgings", "lodging", "stays"]
      [("lodgings", .arr L), ("dining", b), ("experiences", c), ("other", d)]
      = [("lodgings", .arr (L.map cleanBucketItem)), ("dining", b), ("experiences", c),
         ("other", d)] := rfl

theorem normaliseBucket_dining_step (a : JVal) (D : List JVal) (c d : JVal) :
    normaliseBucket ["dining", "restaurants", "food"]
      [("lodgings", a), ("dining", .arr D), ("experiences", c), ("other", d)]
      = [("lodgings", a), ("dining", .arr (D.map cleanBucketItem)), ("experiences", c),
         ("other", d)] := rfl

theorem normaliseBucket_experiences_step (a b : JVal) (E : List JVal) (d : JVal) :
    normaliseBucket ["experiences", "activities", "things_to_do"]
      [("lodgings", a), ("dining", b), ("experiences", .arr E), ("other", d)]
      = [("lodgings", a), ("dining", b), ("experiences", .arr (E.map cleanBucketItem)),
         ("other", d)] := rfl

theorem dedupVibesAux_pairwise (items : List String) :
    ∀ seen acc, (∀ a ∈ acc, pyLower a ∈ seen) →
      List.Pairwise (fun x y => pyLower x ≠ pyLower y) acc →
      List.Pairwise (fun x y => pyLower x ≠ pyLower y) (dedupVibesAux seen acc items) := by
  induction items with
  | nil =>
    intro seen acc hacc hpair
    rw [dedupVibesAux, List.pairwise_reverse]
    exact hpair.imp (fun h => Ne.symm h)
  | cons item rest ih =>
    intro seen acc hacc hpair
    rw [dedupVibesAux]
    cases hcl : cleanText (some item) with
    | none => exact ih _ _ hacc hpair
    | some cleaned =>
      by_cases hmem : pyLower cleaned ∈ seen
      · simp only [hmem, if_true]
        exact ih _ _ hacc hpair
      · simp only [hmem, if_false]
        apply ih
        · intro a ha
          rcases List.mem_cons.mp ha with rfl | ha2
          · exact List.mem_cons_self _ _
          · exact List.mem_cons_of_mem _ (hacc a ha2)
        · refine List.Pairwise.cons ?_ hpair
          intro a ha heq
          exact hmem (by rw [heq]; exact hacc a ha)

theorem dedupVibesAux_mem (items : List String) :
    ∀ seen acc v, v ∈ dedupVibesAux seen acc items →
      v ∈ acc ∨ ∃ raw ∈ items, cleanText (some raw) = some v := by
  induction items with
  | nil =>
    intro seen acc v hv
    rw [dedupVibesAux] at hv
    left
    simpa using hv
  | cons item rest ih =>
    intro seen acc v hv
    rw [dedupVibesAux] at hv
    cases hcl : cleanText (some item) with
    | none =>
      rw [hcl] at hv
      rcases ih _ _ _ hv with h | ⟨raw, hr, hc⟩
      · left; exact h
      · right; exact ⟨raw, List.mem_cons_of_mem _ hr, hc⟩
    | some cleaned =>
      rw [hcl] at hv
      by_cases hmem : pyLower cleaned ∈ seen
      · simp only [hmem, if_true] at hv
        rcases ih _ _ _ hv with h | ⟨raw, hr, hc⟩
        · left; exact h
        · right; exact ⟨raw, List.mem_cons_of_mem _ hr, hc⟩
      · simp only [hmem, if_false] at hv
        rcases ih _ _ _ hv with h | ⟨raw, hr, hc⟩
        · rcases List.mem_cons.mp h with rfl | h2
          · right; exact ⟨item, List.mem_cons_self _ _, hcl⟩
          · left; exact h2
        · right; exact ⟨raw, List.mem_cons_of_mem _ hr, hc⟩

theorem charListLt_asymm (a : List Char) :
    ∀ b, charListLt a b = true → charListLt b a = false := by
  induction a with
  | nil =>
    intro b h
    cases b with
    | nil => simp [charListLt] at h
    | cons y ys => simp [charListLt]
  | cons x xs ih =>
    intro b h
    cases b with
    | nil => simp [charListLt] at h
    | cons y ys =>
      rw [charListLt] at h ⊢
      by_cases hxy : x.toNat < y.toNat
      · simp [hxy, show ¬y.toNat < x.toNat by omega]
      · by_cases hyx : y.toNat < x.toNat
        · simp [hxy, hyx] at h
        · have h1 : charListLt xs ys = true := by simpa [hxy, hyx] using h
          simp [hxy, hyx]
          exact ih ys h1

theorem charListLt_trans (a : List Char) :
    ∀ b c, charListLt a b = true → charListLt b c = true → charListLt a c = true := by
  induction a with
  | nil =>
    intro b c h1 h2
    cases b with
    | nil => simp [charListLt] at h1
    | cons y ys =>
      cases c with
      | nil => simp [charListLt] at h2
      | cons z zs => simp [charListLt]
  | cons x xs ih =>
    intro b c h1 h2
    cases b with
    | nil => simp [charListLt] at h1
    | cons y ys =>
      cases c with
      | nil => simp [charListLt] at h2
      | cons z zs =>
        rw [charListLt] at h1 h2 ⊢
        by_cases hxy : x.toNat < y.toNat
        · by_cases hyz : y.toNat < z.toNat
          · simp [show x.toNat < z.toNat by omega]
          · by_cases hzy : z.toNat < y.toNat
            · simp [hyz, hzy] at h2
            · have : x.toNat < z.toNat := by omega
              simp [this]
        · by_cases hyx : y.toNat < x.toNat
          · simp [hxy, hyx] at h1
          · have h1c : charListLt xs ys = true := by simpa [hxy, hyx] using h1
            by_cases hyz : y.toNat < z.toNat
            · simp [show x.toNat < z.toNat by omega]
            · by_cases hzy : z.toNat < y.toNat
              · simp [hyz, hzy] at h2
              · have h2c : charListLt ys zs = true := by simpa [hyz, hzy] using h2
                simp [show ¬x.toNat < z.toNat by omega, show ¬z.toNat < x.toNat by omega]
                exact ih ys zs h1c h2c

theorem charListLt_eq_of_not (a : List Char) :
    ∀ b, charListLt a b = false → charListLt b a = false → a = b := by
  induction a with
  | nil =>
    intro b h1 h2
    cases b with
    | nil => rfl
    | cons y ys => simp [charListLt] at h1
  | cons x xs ih =>
    intro b h1 h2
    cases b with
    | nil => simp [charListLt] at h2
    | cons y ys =>
      rw [charListLt] at h1 h2
      by_cases hxy : x.toNat < y.toNat
      · simp [hxy] at h1
      · by_cases hyx : y.toNat < x.toNat
        · simp [hyx] at h2
        · have h1c : charListLt xs ys = false := by simpa [hxy, hyx] using h1
          have h2c : charListLt ys xs = false := by simpa [hxy, hyx] using h2
          have hn : x.toNat = y.toNat := by omega
          have hc : x = y := Char.ext (UInt32.ext hn)
          rw [hc, ih ys h1c h2c]

theorem pyStrLe_total (a b : String) : pyStrLe a b = true ∨ pyStrLe b a = true := by
  simp only [pyStrLe, pyStrLt, Bool.not_eq_true']
  by_cases h : charListLt b.toList a.toList = true
  · right
    exact charListLt_asymm _ _ h
  · left
    simpa using h

theorem pyStrLe_trans (a b c : String) (h1 : pyStrLe a b = true)
    (h2 : pyStrLe b c = true) : pyStrLe a c = true := by
  simp only [pyStrLe, pyStrLt, Bool.not_eq_true'] at h1 h2 ⊢
  by_cases hca : charListLt c.toList a.toList = true
  · by_cases hab : charListLt a.toList b.toList = true
    · have := charListLt_trans _ _ _ hca hab
      rw [this] at h2
      simp at h2
    · have hba : a.toList = b.toList := by
        apply charListLt_eq_of_not
        · simpa using hab
        · exact h1
      rw [← hba] at h2
      rw [h2] at hca
      simp at hca
  · simpa using hca

theorem pyInsertSorted_perm (x : String) (l : List String) :
    List.Perm (pyInsertSorted x l) (x :: l) := by
  induction l with
  | nil => simp [pyInsertSorted]
  | cons y ys ih =>
    by_cases hxy : pyStrLe x y = true
    · rw [pyInsertSorted, if_pos hxy]
    · rw [pyInsertSorted, if_neg hxy]
      exact (List.Perm.cons y ih).trans (List.Perm.swap x y ys)

theorem pyInsertSorted_pairwise (x : String) (l : List String)
    (h : List.Pairwise (fun a b => pyStrLe a b = true) l) :
    List.Pairwise (fun a b => pyStrLe a b = true) (pyInsertSorted x l) := by
  induction l with
  | nil => simp [pyInsertSorted]
  | cons y ys ih =>
    by_cases hxy : pyStrLe x y = true
    · rw [pyInsertSorted, if_pos hxy]
      refine List.Pairwise.cons ?_ h
      intro z hz
      rcases List.mem_cons.mp hz with rfl | hz2
      · exact hxy
      · exact pyStrLe_trans x y z hxy ((List.pairwise_cons.mp h).1 z hz2)
    · rw [pyInsertSorted, if_neg hxy]
      have hyx : pyStrLe y x = true := by
        rcases pyStrLe_total x y with h1 | h1
        · exact absurd h1 hxy
        · exact h1
      refine List.Pairwise.cons ?_ (ih (List.pairwise_cons.mp h).2)
      intro z hz
      have hmem : z ∈ x :: ys := (pyInsertSorted_perm x ys).mem_iff.mp hz
      rcases List.mem_cons.mp hmem with rfl | hz2
      · exact hyx
      · exact (List.pairwise_cons.mp h).1 z hz2

theorem pySortStrings_pairwise (l : List String) :
    List.Pairwise (fun a b => pyStrLe a b = true) (pySortStrings l) := by
  induction l with
  | nil => simp [pySortStrings]
  | cons x xs ih =>
    simp only [pySortStrings, List.foldr_cons] at ih ⊢
    exact pyInsertSorted_pairwise x _ ih

theorem pySortStrings_perm (l : List String) : List.Perm (pySortStrings l) l := by
  induction l with
  | nil => simp [pySortStrings]
  | cons x xs ih =>
    simp only [pySortStrings, List.foldr_cons] at ih ⊢
    exact (pyInsertSorted_perm x _).trans (List.Perm.cons x ih)

/-! ### Claim theorems -/

/-- C1: the claimed round-trip fails on the code. `TripIntent`
(schemas.py lines 49-69) declares no `saved_inspirations`,
`liked_inspirations` or `mood` fields, so constructing it with the saved
and liked selection lists (as `src/meguru/ui/plan.py` does) silently drops
them under pydantic's default `extra="ignore"`, and reading them back (as
`PlannerAgent.run` does at planner.py lines 67-71) raises
`AttributeError`, modelled as `none`. -/
theorem trip_intent_lacks_selection_fields :
    (tripIntentGetAttr (tripIntentInit c1Payload) "saved_inspirations").isNone = true ∧
    (tripIntentGetAttr (tripIntentInit c1Payload) "liked_inspirations").isNone = true ∧
    tripIntentFields.contains "saved_inspirations" = false ∧
    tripIntentFields.contains "liked_inspirations" = false ∧
    tripIntentFields.contains "mood" = false ∧
    entContains (tripIntentInit c1Payload) "saved_inspirations" = false := by
  refine ⟨rfl, rfl, by decide, by decide, by decide, rfl⟩

/-- C2: `ensure_consistency` with a preferred day index leaves the updated
day at exactly that index: the padded day list has length
`max (old length) (index + 1)`, position `i` holds the updated day, every
old position other than `i` is unchanged, and the positions created by
padding hold empty placeholder days. -/
theorem refiner_places_updated_day (r : RefinerResponse) (i : Nat) :
    ((r.ensureConsistency (some i)).itinerary.days.length
        = max r.itinerary.days.length (i + 1)) ∧
    ((r.ensureConsistency (some i)).itinerary.days.get? i = some r.updated_day) ∧
    (∀ j, j < r.itinerary.days.length → j ≠ i →
      (r.ensureConsistency (some i)).itinerary.days.get? j = r.itinerary.days.get? j) ∧
    (∀ j, r.itinerary.days.length ≤ j → j < i →
      (r.ensureConsistency (some i)).itinerary.days.get? j = some DayPlan.empty) := by
  have hdays : (r.ensureConsistency (some i)).itinerary.days
      = (r.itinerary.days ++
          List.replicate (i + 1 - r.itinerary.days.length) DayPlan.empty).set i
          r.updated_day := by
    simp [RefinerResponse.ensureConsistency, ensureConsistencyDays, padDays_eq]
  refine ⟨?_, ?_, ?_, ?_⟩
  · rw [hdays, List.length_set]
    simp only [List.length_append, List.length_replicate]
    omega
  · rw [hdays]
    apply getElemOpt_set_self
    simp only [List.length_append, List.length_replicate]
    omega
  · intro j hj hne
    rw [hdays, getElemOpt_set_other _ _ _ _ hne]
    exact getElemOpt_append_left _ _ _ hj
  · intro j hjL hji
    rw [hdays, getElemOpt_set_other _ _ _ _ (by omega),
        getElemOpt_append_right _ _ _ hjL]
    exact getElemOpt_replicate _ _ _ (by omega)

/-- Witness for C2: `day_index=5` on a two-day itinerary yields six days,
day 5 is the updated day, day 0 is the original first day, day 3 is an
empty placeholder. -/
theorem refiner_places_updated_day_witness :
    (c2Example.ensureConsistency (some 5)).itinerary.days.length = 6 ∧
    (c2Example.ensureConsistency (some 5)).itinerary.days.get? 5
        = some c2Example.updated_day ∧
    (c2Example.ensureConsistency (some 5)).itinerary.days.get? 0
        = c2Example.itinerary.days.get? 0 ∧
    (c2Example.ensureConsistency (some 5)).itinerary.days.get? 3 = some DayPlan.empty := by
  have h := refiner_places_updated_day c2Example 5
  exact ⟨by rw [h.1]; decide, h.2.1, h.2.2.1 0 (by decide) (by decide),
    h.2.2.2 3 (by decide) (by decide)⟩

/-- C3: when two intents share a cache key, the second `_run_research` call
returns the cached corpus without invoking the agent and its result is
value-equal to the first run's; after `clear_research_cache` the next run
invokes the agent again. -/
theorem research_cache_hit_and_clear (agent : TripIntent → ResearchCorpus)
    (cache : List (String × ResearchCorpus)) (i1 i2 : TripIntent)
    (h : cacheKey i1 = cacheKey i2) :
    ((runResearch agent (runResearch agent cache i1).2.1 i2).2.2 = false) ∧
    ((runResearch agent (runResearch agent cache i1).2.1 i2).1
        = (runResearch agent cache i1).1) ∧
    ((runResearch agent (clearResearchCache
        (runResearch agent (runResearch agent cache i1).2.1 i2).2.1) i2).2.2 = true) := by
  cases hl : cacheLookup cache (cacheKey i1) with
  | some e =>
    have e1 : runResearch agent cache i1 = (e, cache, false) := by
      simp [runResearch, hl]
    have e2 : runResearch agent cache i2 = (e, cache, false) := by
      simp [runResearch, ← h, hl]
    refine ⟨?_, ?_, ?_⟩
    · rw [e1]; rw [e2]
    · rw [e1]; rw [e2]
    · simp only [clearResearchCache]
      simp [runResearch, cacheLookup]
  | none =>
    have e1 : runResearch agent cache i1
        = (agent i1, cacheInsert cache (cacheKey i1) (agent i1), true) := by
      simp [runResearch, hl]
    have e2 : runResearch agent (cacheInsert cache (cacheKey i1) (agent i1)) i2
        = (agent i1, cacheInsert cache (cacheKey i1) (agent i1), false) := by
      simp [runResearch, ← h, cacheLookup_cacheInsert_self]
    refine ⟨?_, ?_, ?_⟩
    · rw [e1]; rw [e2]
    · rw [e1]; rw [e2]
    · simp only [clearResearchCache]
      simp [runResearch, cacheLookup]

/-- Witness for C3: the same Kyoto intent twice against an empty cache. -/
theorem research_cache_hit_and_clear_witness :
    ((runResearch c3Agent (runResearch c3Agent [] c3Intent).2.1 c3Intent).2.2 = false) ∧
    ((runResearch c3Agent (runResearch c3Agent [] c3Intent).2.1 c3Intent).1
        = (runResearch c3Agent [] c3Intent).1) ∧
    ((runResearch c3Agent (clearResearchCache
        (runResearch c3Agent (runResearch c3Agent [] c3Intent).2.1 c3Intent).2.1)
        c3Intent).2.2 = true) :=
  research_cache_hit_and_clear c3Agent [] c3Intent c3Intent rfl

/-- C4, counterexample: `TripBriefMemory.update` does not union vibes. A
brief holding "Nightlife" updated with the non-empty vibe list
["Foodie adventures"] ends up without "Nightlife", though the claimed
set-union would retain it. -/
theorem memory_vibes_not_union :
    "Nightlife" ∈ c4Held.vibes ∧
    cleanVibes c4State.vibe ≠ [] ∧
    (TripBriefMemory.update c4Held c4State).vibes = ["Foodie adventures"] ∧
    "Nightlife" ∉ (TripBriefMemory.update c4Held c4State).vibes := by decide

/-- C4, amended: when the incoming vibe list cleans to a non-empty list,
the updated brief's vibes are exactly the incoming vibes de-duplicated
case-insensitively with the first casing preserved — they replace the held
vibes rather than being unioned with them. -/
theorem memory_update_vibes_replace (b : TripBrief) (st : BriefState)
    (h : cleanVibes st.vibe ≠ []) :
    (TripBriefMemory.update b st).vibes = cleanVibes st.vibe ∧
    List.Pairwise (fun x y => pyLower x ≠ pyLower y) (cleanVibes st.vibe) ∧
    (∀ v ∈ cleanVibes st.vibe, ∃ raw ∈ st.vibe.getD [], cleanText (some raw) = some v) := by
  refine ⟨?_, ?_, ?_⟩
  · cases hcv : cleanVibes st.vibe with
    | nil => exact absurd hcv h
    | cons x xs => simp only [TripBriefMemory.update, hcv, pyOrList]
  · cases hsv : st.vibe with
    | none => rw [hsv] at h; exact absurd rfl h
    | some items => exact dedupVibesAux_pairwise items [] [] (by simp) (by simp)
  · intro v hv
    cases hsv : st.vibe with
    | none => rw [hsv] at h; exact absurd rfl h
    | some items =>
      rw [hsv] at hv
      have := dedupVibesAux_mem items [] [] v (by simpa [cleanVibes] using hv)
      simpa using this

/-- Witness for C4: a case-insensitive duplicate is dropped with the first
casing kept, and the held vibes are replaced. -/
theorem memory_update_vibes_replace_witness :
    (TripBriefMemory.update {} c4WitState).vibes = ["Foodie adventures", "Nightlife"] := by
  have h := (memory_update_vibes_replace {} c4WitState (by decide)).1
  rw [h]
  decide

/-- C5, counterexample: tone is a sticky field present after the first
update and absent in the second update's state, yet the second update
overwrites it with the tone derived from the incoming mood
("peaceful" ↦ "calm"). -/
theorem memory_tone_overwritten_by_derivation :
    (TripBriefMemory.update {} c5First).tone = some "upbeat" ∧
    c5Second.tone = none ∧
    (TripBriefMemory.update (TripBriefMemory.update {} c5First) c5Second).tone
      = some "calm" := by decide

/-- C5, amended: destination, group type, group size, pace, budget, mood
and vibes are sticky unconditionally — an update whose value is absent or
empty keeps the held value; tone and occasion are sticky provided the
update also derives no value (no mood-derived tone, no occasion keyword in
its notes or timing note); and no field present in the held brief is ever
cleared to empty by an update. -/
theorem memory_update_sticky_fields (b : TripBrief) (st : BriefState) :
    (cleanText st.destination = none →
      (TripBriefMemory.update b st).destination = b.destination) ∧
    (cleanText st.group_type = none →
      (TripBriefMemory.update b st).group_type = b.group_type) ∧
    (coercePositiveInt st.group_size = none →
      (TripBriefMemory.update b st).group_size = b.group_size) ∧
    (cleanText st.travel_pace = none →
      (TripBriefMemory.update b st).travel_pace = b.travel_pace) ∧
    (cleanText st.budget = none →
      (TripBriefMemory.update b st).budget = b.budget) ∧
    (cleanText st.mood = none →
      (TripBriefMemory.update b st).mood = b.mood) ∧
    (cleanVibes st.vibe = [] →
      (TripBriefMemory.update b st).vibes = b.vibes) ∧
    (cleanText st.tone = none → cleanText st.mood = none →
      (TripBriefMemory.update b st).tone = b.tone) ∧
    (∀ m, cleanText st.tone = none → cleanText st.mood = some m →
      tableGet moodTones (pyLower m) = none →
      (TripBriefMemory.update b st).tone = b.tone) ∧
    (cleanText st.occasion = none → occasionScan (occasionNoteText st) = none →
      (TripBriefMemory.update b st).occasion = b.occasion) ∧
    (b.destination.isSome → (TripBriefMemory.update b st).destination.isSome) ∧
    (b.group_type.isSome → (TripBriefMemory.update b st).group_type.isSome) ∧
    (b.group_size.isSome → (TripBriefMemory.update b st).group_size.isSome) ∧
    (b.travel_pace.isSome → (TripBriefMemory.update b st).travel_pace.isSome) ∧
    (b.budget.isSome → (TripBriefMemory.update b st).budget.isSome) ∧
    (b.mood.isSome → (TripBriefMemory.update b st).mood.isSome) ∧
    (b.tone.isSome → (TripBriefMemory.update b st).tone.isSome) ∧
    (b.occasion.isSome → (TripBriefMemory.update b st).occasion.isSome) ∧
    (b.vibes ≠ [] → (TripBriefMemory.update b st).vibes ≠ []) := by
  refine ⟨?_, ?_, ?_, ?_, ?_, ?_, ?_, ?_, ?_, ?_, ?_, ?_, ?_, ?_, ?_, ?_, ?_, ?_, ?_⟩
  · intro h; simp [TripBriefMemory.update, h, pyOrOpt]
  · intro h; simp [TripBriefMemory.update, h, pyOrOpt]
  · intro h; simp [TripBriefMemory.update, h, pyOrOpt]
  · intro h; simp [TripBriefMemory.update, h, pyOrOpt]
  · intro h; simp [TripBriefMemory.update, h, pyOrOpt]
  · intro h; simp [TripBriefMemory.update, h, pyOrOpt]
  · intro h; simp [TripBriefMemory.update, h, pyOrList]
  · intro h1 h2; simp [TripBriefMemory.update, h1, h2, pyOrOpt]
  · intro m h1 h2 h3; simp [TripBriefMemory.update, h1, h2, h3, pyOrOpt]
  · intro h1 h2; simp [TripBriefMemory.update, h1, h2, pyOrOpt]
  · intro h; simp only [TripBriefMemory.update]; exact pyOrOpt_isSome _ _ h
  · intro h; simp only [TripBriefMemory.update]; exact pyOrOpt_isSome _ _ h
  · intro h; simp only [TripBriefMemory.update]; exact pyOrOpt_isSome _ _ h
  · intro h; simp only [TripBriefMemory.update]; exact pyOrOpt_isSome _ _ h
  · intro h; simp only [TripBriefMemory.update]; exact pyOrOpt_isSome _ _ h
  · intro h; simp only [TripBriefMemory.update]; exact pyOrOpt_isSome _ _ h
  · intro h; simp only [TripBriefMemory.update]; exact pyOrOpt_isSome _ _ h
  · intro h; simp only [TripBriefMemory.update]; exact pyOrOpt_isSome _ _ h
  · intro h; simp only [TripBriefMemory.update]; exact pyOrList_ne_nil _ _ h

/-- Witness for C5: an empty update preserves a held destination, tone and
vibe list. -/
theorem memory_update_sticky_fields_witness :
    (TripBriefMemory.update c5WitBrief {}).destination = some "Kyoto" ∧
    (TripBriefMemory.update c5WitBrief {}).tone = some "upbeat" ∧
    (TripBriefMemory.update c5WitBrief {}).vibes ≠ [] := by
  have h := memory_update_sticky_fields c5WitBrief {}
  refine ⟨?_, ?_, h.2.2.2.2.2.2.2.2.2.2.2.2.2.2.2.2.2.2 (by decide)⟩
  · rw [h.1 (by decide)]; decide
  · rw [h.2.2.2.2.2.2.2.1 (by decide) (by decide)]; decide

/-- C6: the Listener's missing-context result re-reports all still
unresolved previously-pending fields (de-duplicated, none resolved away)
when any remain; otherwise it is the singleton of the first required field
— in the fixed order destination, timing, vibe, travel_pace, budget,
group — failing `_has_field`, and empty exactly when every required field
satisfies `_has_field`. -/
theorem listener_missing_fields_protocol (ctx : PlanContext) (pending : List String) :
    (pending.filter (fun f => !(hasField ctx f)) ≠ [] →
      listenerMissing ctx pending
        = firstDedup (pending.filter (fun f => !(hasField ctx f)))) ∧
    (pending.filter (fun f => !(hasField ctx f)) = [] →
      listenerMissing ctx pending
        = (match requiredFields.find? (fun f => !(hasField ctx f)) with
           | some f => [f]
           | none => [])) ∧
    (listenerMissing ctx [] = [] ↔ ∀ f ∈ requiredFields, hasField ctx f = true) := by
  have hfil := listener_pending_filter pending (fun f => hasField ctx f)
  refine ⟨?_, ?_, ?_⟩
  · intro hne
    simp only [listenerMissing, detectMissingFields, hfil]
    rw [if_pos hne]
  · intro he
    simp only [listenerMissing, detectMissingFields, hfil, he]
    simp
  · have hnil : listenerMissing ctx []
        = (match requiredFields.find? (fun f => !(hasField ctx f)) with
           | some f => [f]
           | none => []) := by
      simp [listenerMissing, detectMissingFields]
    rw [hnil]
    cases hf : requiredFields.find? (fun f => !(hasField ctx f)) with
    | some f =>
      have hmem := List.mem_of_find?_eq_some hf
      have hval := List.find?_some hf
      simp only [Bool.not_eq_true'] at hval
      simp only [List.cons_ne_self]
      constructor
      · intro hcontr; exact absurd hcontr (by simp)
      · intro hall
        have := hall f hmem
        rw [this] at hval
        exact absurd hval (by simp)
    | none =>
      have hall := List.find?_eq_none.mp hf
      simp only [true_iff]
      intro f hfmem
      simpa using hall f hfmem

/-- Witness for C6: unresolved pending fields are re-reported once. -/
theorem listener_missing_fields_protocol_witness :
    listenerMissing {} ["budget", "budget"] = ["budget"] := by
  have h := (listener_missing_fields_protocol {} ["budget", "budget"]).1 (by decide)
  rw [h]
  decide

/-- C7: only a malformed (unparseable) first response triggers a second
chat call, which forces strict JSON mode; a transport error or missing
content propagates after one call, a schema validation failure on a parsed
payload is wrapped without any further call, and a second malformed
response propagates as the JSON error. -/
theorem llm_retry_protocol {J T : Type} (parse : String → Option J)
    (chat : Bool → ChatResult) (validate : J → Except String T) :
    (chat false = .netError →
      callLlmAndValidate parse chat validate = (.error (.llm .network), [false])) ∧
    (chat false = .noChoices →
      callLlmAndValidate parse chat validate = (.error (.llm .value), [false])) ∧
    (chat false = .noContent →
      callLlmAndValidate parse chat validate = (.error (.llm .value), [false])) ∧
    (∀ s, chat false = .content s → parse s = none →
      (callLlmAndValidate parse chat validate).2 = [false, true]) ∧
    (∀ s j m, chat false = .content s → parse s = some j → validate j = .error m →
      callLlmAndValidate parse chat validate = (.error (.execution m), [false])) ∧
    (∀ s s2, chat false = .content s → parse s = none → chat true = .content s2 →
      parse s2 = none →
      (callLlmAndValidate parse chat validate).1 = .error (.llm .malformed)) := by
  refine ⟨?_, ?_, ?_, ?_, ?_, ?_⟩
  · intro h; simp [callLlmAndValidate, llmJson, h]
  · intro h; simp [callLlmAndValidate, llmJson, h]
  · intro h; simp [callLlmAndValidate, llmJson, h]
  · intro s h hp
    simp only [callLlmAndValidate, llmJson, h, hp]
    cases h2 : chat true with
    | content s2 =>
      cases hp2 : parse s2 with
      | some j => cases hv : validate j <;> simp [hp2, hv]
      | none => simp [hp2]
    | netError => simp
    | noChoices => simp
    | noContent => simp
  · intro s j m h hp hv
    simp [callLlmAndValidate, llmJson, h, hp, hv]
  · intro s s2 h hp h2 hp2
    simp [callLlmAndValidate, llmJson, h, hp, h2, hp2]

/-- Witness for C7: a malformed first response followed by a parseable
forced-JSON retry logs exactly the two calls `[plain, forced]`. -/
theorem llm_retry_protocol_witness :
    (callLlmAndValidate c7Parse c7Chat c7Validate).2 = [false, true] :=
  (llm_retry_protocol c7Parse c7Chat c7Validate).2.2.2.1 "not json" (by decide) (by decide)

/-- C8: re-running `_normalise_research_buckets` (with its per-item
`_coerce_llm_variants` pass) on the serialized form of a canonical
`ResearchCorpus` — one whose items and embedded places already carry
non-empty place ids — returns the payload unchanged. -/
theorem research_normalisation_idempotent (c : ResearchCorpus)
    (h : canonicalCorpus c = true) :
    normaliseResearchBuckets (serialiseCorpus c) = serialiseCorpus c := by
  obtain ⟨L, D, E, O⟩ := c
  rw [canonicalCorpus] at h
  have hmem : ∀ it ∈ (ResearchCorpus.mk L D E O).items, canonicalItem it = true :=
    fun it hit => List.all_eq_true.mp h it hit
  simp only [ResearchCorpus.items, List.mem_append] at hmem
  have hL : ∀ it ∈ L, canonicalItem it = true :=
    fun it hit => hmem it (by tauto)
  have hD : ∀ it ∈ D, canonicalItem it = true :=
    fun it hit => hmem it (by tauto)
  have hE : ∀ it ∈ E, canonicalItem it = true :=
    fun it hit => hmem it (by tauto)
  rw [serialiseCorpus, normaliseResearchBuckets]
  rw [normaliseBucket_lodgings_step, cleanBucketItem_serialised L hL]
  rw [normaliseBucket_dining_step, cleanBucketItem_serialised D hD]
  rw [normaliseBucket_experiences_step, cleanBucketItem_serialised E hE]

/-- Witness for C8: a concrete canonical corpus is a fixed point of the
normalisation pass. -/
theorem research_normalisation_idempotent_witness :
    canonicalCorpus c8Corpus = true ∧
    normaliseResearchBuckets (serialiseCorpus c8Corpus) = serialiseCorpus c8Corpus :=
  ⟨rfl, research_normalisation_idempotent c8Corpus rfl⟩

/-- C9: the example message, against an empty context with no pending
fields, yields destination "Kyoto", group type "Partner getaway", group
size 2, both "Nightlife" and "Foodie adventures" among the added vibes and
a non-empty timing note; in the merged context destination, timing, vibe
and group satisfy `_has_field` while travel_pace and budget do not. -/
theorem kyoto_message_extraction :
    (listenerRunMessage kyotoMsg {} []).context_updates.destination = some "Kyoto" ∧
    (listenerRunMessage kyotoMsg {} []).context_updates.group_type
        = some "Partner getaway" ∧
    (listenerRunMessage kyotoMsg {} []).context_updates.group_size = some 2 ∧
    "Nightlife" ∈ (listenerRunMessage kyotoMsg {} []).context_updates.vibe_add ∧
    "Foodie adventures" ∈ (listenerRunMessage kyotoMsg {} []).context_updates.vibe_add ∧
    ((listenerRunMessage kyotoMsg {} []).context_updates.timing_note.getD "") ≠ "" ∧
    hasField (mergeContext {} (listenerRunMessage kyotoMsg {} []).context_updates)
        "destination" = true ∧
    hasField (mergeContext {} (listenerRunMessage kyotoMsg {} []).context_updates)
        "timing" = true ∧
    hasField (mergeContext {} (listenerRunMessage kyotoMsg {} []).context_updates)
        "vibe" = true ∧
    hasField (mergeContext {} (listenerRunMessage kyotoMsg {} []).context_updates)
        "group" = true ∧
    hasField (mergeContext {} (listenerRunMessage kyotoMsg {} []).context_updates)
        "travel_pace" = false ∧
    hasField (mergeContext {} (listenerRunMessage kyotoMsg {} []).context_updates)
        "budget" = false := by
  decide

/-- C10: merging a non-empty list of detected (non-blank) vibes yields a
merged vibe list that is lexicographically sorted, duplicate-free, and
contains exactly the union of the prior and added vibes; the extraction
step itself emits the Kyoto example's vibes in insertion order
(Nightlife before Foodie adventures), yet the merged context stores them
sorted. -/
theorem merge_context_vibe_sorted_union (ctx : PlanContext) (u : ContextUpdates)
    (hne : u.vibe_add ≠ []) (hcl : ∀ v ∈ u.vibe_add, v ≠ "") :
    (List.Pairwise (fun a b => pyStrLe a b = true) (mergeContext ctx u).vibe ∧
     (mergeContext ctx u).vibe.Nodup ∧
     (∀ v, v ∈ (mergeContext ctx u).vibe ↔ v ∈ ctx.vibe ∨ v ∈ u.vibe_add)) ∧
    extractVibes kyotoMsg = ["Nightlife", "Foodie adventures"] ∧
    (mergeContext {} { vibe_add := extractVibes kyotoMsg }).vibe
      = ["Foodie adventures", "Nightlife"] := by
  refine ⟨?_, by decide, by decide⟩
  cases hu : u.vibe_add with
  | nil => exact absurd hu hne
  | cons v vs =>
    have hvibe : (mergeContext ctx u).vibe
        = pySortStrings ((ctx.vibe ++ (v :: vs).filter (fun x => x ≠ "")).dedup) := by
      simp [mergeContext, hu]
    refine ⟨?_, ?_, ?_⟩
    · rw [hvibe]
      exact pySortStrings_pairwise _
    · rw [hvibe]
      exact ((pySortStrings_perm _).nodup_iff).mpr (List.nodup_dedup _)
    · intro w
      rw [hvibe, (pySortStrings_perm _).mem_iff, List.mem_dedup, List.mem_append,
        List.mem_filter]
      constructor
      · rintro (h1 | ⟨h2, _⟩)
        · left; exact h1
        · right; exact h2
      · rintro (h1 | h2)
        · left; exact h1
        · right
          refine ⟨h2, ?_⟩
          have := hcl w (by rw [hu]; exact h2)
          simpa using this

/-- Witness for C10: both a held vibe and an added vibe survive the merge. -/
theorem merge_context_vibe_sorted_union_witness :
    "Zebra" ∈ (mergeContext { vibe := ["Zebra"] } { vibe_add := ["Alpha"] }).vibe ∧
    "Alpha" ∈ (mergeContext { vibe := ["Zebra"] } { vibe_add := ["Alpha"] }).vibe := by
  have h := merge_context_vibe_sorted_union { vibe := ["Zebra"] }
    { vibe_add := ["Alpha"] } (by decide) (by decide)
  exact ⟨(h.1.2.2 "Zebra").mpr (Or.inl (by decide)),
    (h.1.2.2 "Alpha").mpr (Or.inr (by decide))⟩
